import Mathlib

/-!
Verification development for the tax-form aggregation and calculation engine
(`src/tasks/mapping.py` and `src/main_flow.py`).

The embedding models:
* form field structures (`PopulatedFormStructure`) as association lists of
  pages, each page holding an ordered list of `FormField`s, mirroring the
  nested JSON dictionaries the Python code walks;
* the helper functions `_get_field_value`, `_set_field_value`,
  `_get_numeric_value` and `_clean_string`;
* the per-form aggregation helper `_aggregate_data_for_form` (sum / mode /
  list / proprietor merge policies), with document values modelled as the
  extracted strings the merge pipeline operates on;
* the calculation blocks of `_perform_calculations` for Form 1040,
  Schedule C and Schedule A;
* the driver's `PROCESSING_ORDER` and the construction of
  `ordered_target_forms` in `main_flow.py`.

Python `float`/`Decimal` arithmetic is modelled with exact rationals (`ℚ`).
`Decimal`/`float` literal parsing is modelled by `parseDecimalQ`, covering
the decimal-literal grammar (sign, digits, fraction, exponent); exotic
inputs (NaN, Infinity, digit underscores) are outside the rational model.
-/

/-- Primitive field values: strings, numbers (Python int/float/Decimal as ℚ)
and booleans.  Mirrors the primitives stored in `field_def["value"]`. -/
inductive Val where
  | s (x : String)
  | num (q : ℚ)
  | b (x : Bool)
deriving DecidableEq

/-- One cell of a form structure: `{field_name, value, sources}` as in the
Gemini blank-field JSON files manipulated by `mapping.py`. -/
structure FormField where
  field_name : String
  value : Option Val
  sources : Option (List String)
deriving DecidableEq

/-- `PopulatedFormStructure`: page key -> list of field definitions, in the
order the Python code iterates `structure.items()` / `page["fields"]`. -/
abbrev FormStructure := List (String × List FormField)

/-- Dependency cache `populated_structures_cache`: form type -> structure. -/
abbrev Cache := List (String × FormStructure)

/-- First-match association-list lookup (Python `dict` lookup; dictionaries
have unique keys, which lookup-first models). -/
def alookup {β : Type} : List (String × β) → String → Option β
  | [], _ => none
  | (k, v) :: rest, key => if k = key then some v else alookup rest key

/-- First field with the given `field_name` within one page's field list. -/
def find_in_fields : List FormField → String → Option FormField
  | [], _ => none
  | f :: rest, n => if f.field_name = n then some f else find_in_fields rest n

/-- First field with the given name across all pages (`_get_field_value`'s
scan order). -/
def find_field : FormStructure → String → Option FormField
  | [], _ => none
  | (_, fields) :: rest, n =>
    match find_in_fields fields n with
    | some f => some f
    | none => find_field rest n

/-- `_get_field_value`: the field's `value`, `None` both when the field is
missing and when its value is null. -/
def get_field_value (s : FormStructure) (n : String) : Option Val :=
  (find_field s n).bind FormField.value

/-- Whether some field with this name exists (used to state when
`_set_field_value` actually lands). -/
def has_field (s : FormStructure) (n : String) : Bool :=
  (find_field s n).isSome

/-- Set `value` and `sources` on the first field with this name inside one
page; `none` when the page has no such field. -/
def set_in_fields : List FormField → String → Val → String → Option (List FormField)
  | [], _, _, _ => none
  | f :: rest, n, v, src =>
    if f.field_name = n then
      some ({ f with value := some v, sources := some [src] } :: rest)
    else
      (set_in_fields rest n v src).map (f :: ·)

/-- `_set_field_value`: mutate the first matching field (the Python code
breaks after the first hit); a miss only logs a warning, leaving the
structure unchanged.  All calculation call sites use the default source
string `"Calculated"`, passed explicitly here. -/
def set_field_value (s : FormStructure) (n : String) (v : Val) (src : String) : FormStructure :=
  match s with
  | [] => []
  | (pk, fields) :: rest =>
    match set_in_fields fields n v src with
    | some fields2 => (pk, fields2) :: rest
    | none => (pk, fields) :: set_field_value rest n v src

/-- Strip leading and trailing whitespace from a character list (Python
`str.strip()`). -/
def pyStripChars (cs : List Char) : List Char :=
  ((cs.dropWhile Char.isWhitespace).reverse.dropWhile Char.isWhitespace).reverse

/-- Python `str.strip()` on strings. -/
def pyStrip (s : String) : String :=
  String.mk (pyStripChars s.toList)

/-- Digit list to natural number, most significant first. -/
def digitsToNat (cs : List Char) : ℕ :=
  cs.foldl (fun acc c => acc * 10 + (c.toNat - 48)) 0

/-- Syntactic scan of a decimal literal: optional sign, digits with an
optional single decimal point (at least one digit overall), optional
exponent.  Returns `(negative, integer part, fraction part, fraction
length, exponent negative, exponent)`.  This is the literal grammar shared
by Python `float(...)` and `Decimal(...)` on the inputs this pipeline
produces (NaN/Infinity and digit underscores are outside the model). -/
def scanDecimal (cs : List Char) : Option (Bool × ℕ × ℕ × ℕ × Bool × ℕ) :=
  let (neg, cs1) :=
    match cs with
    | '+' :: r => (false, r)
    | '-' :: r => (true, r)
    | r => (false, r)
  let ip := cs1.takeWhile Char.isDigit
  let cs2 := cs1.dropWhile Char.isDigit
  let (fp, cs3) :=
    match cs2 with
    | '.' :: r => (r.takeWhile Char.isDigit, r.dropWhile Char.isDigit)
    | r => (([] : List Char), r)
  if ip = [] ∧ fp = [] then none
  else
    match cs3 with
    | [] => some (neg, digitsToNat ip, digitsToNat fp, fp.length, false, 0)
    | e :: r =>
      if e = 'e' ∨ e = 'E' then
        let (eneg, r1) :=
          match r with
          | '+' :: rr => (false, rr)
          | '-' :: rr => (true, rr)
          | rr => (false, rr)
        let eds := r1.takeWhile Char.isDigit
        let rest := r1.dropWhile Char.isDigit
        if eds = [] ∨ rest ≠ [] then none
        else some (neg, digitsToNat ip, digitsToNat fp, fp.length, eneg, digitsToNat eds)
      else none

/-- Rational value of a scanned decimal literal. -/
def ratOfScan : Bool × ℕ × ℕ × ℕ × Bool × ℕ → ℚ
  | (neg, ip, fp, flen, eneg, ed) =>
    (if neg then (-1 : ℚ) else 1) * ((ip : ℚ) + (fp : ℚ) / (10 : ℚ) ^ flen) *
      (10 : ℚ) ^ (if eneg then -(ed : ℤ) else (ed : ℤ))

/-- Numeric-literal parse of a character list, after stripping surrounding
whitespace as both `float(str)` and `Decimal(str)` do. -/
def parseFloatChars (cs : List Char) : Option ℚ :=
  (scanDecimal (pyStripChars cs)).map ratOfScan

/-- Numeric-literal parse of a string (`float(...)` / `Decimal(...)`). -/
def parseDecimalQ (s : String) : Option ℚ :=
  parseFloatChars s.toList

/-- The string branch of `_get_numeric_value`: strip `$`/`,`
(`re.sub(r'[$,]', '', value)`), rewrite a value that starts with `(` and
ends with `)` to a leading minus, then `float(...)`. -/
def parse_numeric_string (s : String) : Option ℚ :=
  let cleaned := s.toList.filter (fun c => !(c == '$' || c == ','))
  let c2 :=
    match cleaned with
    | '(' :: rest =>
      if rest.getLast? = some ')' then '-' :: rest.dropLast else cleaned
    | _ => cleaned
  parseFloatChars c2

/-- `_get_numeric_value(structure, field_name)` with the default `0.0` every
call site uses.  A Python `bool` is an `int` (`float(True) = 1.0`), hence the
boolean case; parse failures and missing fields fall back to the default. -/
def get_numeric_value (s : FormStructure) (n : String) : ℚ :=
  match get_field_value s n with
  | none => 0
  | some (Val.s str) => (parse_numeric_string str).getD 0
  | some (Val.num q) => q
  | some (Val.b bv) => if bv then 1 else 0

/-- The driver's fixed `PROCESSING_ORDER` from `main_flow.py`. -/
def PROCESSING_ORDER : List String :=
  ["SchedC", "SchedE", "1040-SE", "Schedule 1", "Schedule 2", "Form 2441",
   "Schedule 3", "Form 8812", "Schedule A", "1040"]

/-- `ordered_target_forms`: the determined targets filtered through the fixed
order, followed by any targets outside the predefined order. -/
def ordered_target_forms (targets : List String) : List String :=
  let ordered := PROCESSING_ORDER.filter (fun f => f ∈ targets)
  ordered ++ targets.filter (fun f => f ∉ ordered)

/-- Forms strictly preceding `f` in the fixed processing order. -/
def formsBefore (f : String) : List String :=
  PROCESSING_ORDER.takeWhile (fun g => g ≠ f)

/-! ### Aggregation (`_aggregate_data_for_form`)

Document data is modelled as the extracted string values the merge pipeline
cleans and parses: each document is an ordered key -> `{value, source}` map
(`document_data.items()` order), and the input is doc type -> documents
(`aggregated_data_by_type`).  Entries lacking the `value`/`source` shape are
skipped by the Python code before anything else happens; the model makes
that shape type-level. -/

/-- Document source identifiers. -/
abbrev Source := String

/-- One `{"value": ..., "source": ...}` entry of a document's data. -/
structure RawEntry where
  value : Option String
  source : Source
deriving DecidableEq

/-- One document's extracted data, in dict iteration order. -/
abbrev DocumentData := List (String × RawEntry)

/-- `aggregated_data_by_type`: document type -> documents of that type. -/
abbrev DataByType := List (String × List DocumentData)

/-- `_clean_string`: `None` stays `None`, anything else is string-normalised
and stripped of surrounding whitespace. -/
def clean_string (v : Option String) : Option String :=
  v.map pyStrip

/-- `re.sub(r'[$,()]', '', cleaned_value)` from the SUM branch: currency
symbols, thousands separators and parentheses are all removed (parentheses
are not turned into a minus sign here). -/
def stripSumChars (s : String) : String :=
  String.mk (s.toList.filter (fun c => !(c == '$' || c == ',' || c == '(' || c == ')')))

/-- Add a source to a source set, modelled as a first-insertion-ordered
duplicate-free list (the Python code uses `set` and sorts on output; all
claims about sources are membership-level). -/
def addIfAbsent (l : List Source) (s : Source) : List Source :=
  if s ∈ l then l else l ++ [s]

/-- The `try` body of the SUM branch: on a successful `Decimal` parse the
running total and source set are updated, otherwise the entry is left as the
`setdefault` created or found it. -/
def sumTry (ts : ℚ × List Source) (cleaned : String) (src : Source) : ℚ × List Source :=
  match parseDecimalQ (stripSumChars cleaned) with
  | some q => (ts.1 + q, addIfAbsent ts.2 src)
  | none => ts

/-- Generic in-place association update mirroring
`d.setdefault(key, d0)` followed by a mutation `f` of the entry. -/
def updateAssoc {β : Type} (l : List (String × β)) (key : String) (f : β → β) (d0 : β) :
    List (String × β) :=
  match l with
  | [] => [(key, f d0)]
  | (k, v) :: rest =>
    if k = key then (k, f v) :: rest
    else (k, v) :: updateAssoc rest key f d0

/-- SUM-branch store update: `setdefault(key, (0.0, ∅))` then attempt the
numeric accumulation. -/
def sumUpdate (l : List (String × (ℚ × List Source))) (key : String)
    (cleaned : String) (src : Source) : List (String × (ℚ × List Source)) :=
  updateAssoc l key (fun ts => sumTry ts cleaned src) ((0 : ℚ), ([] : List Source))

/-- MODE/LIST/proprietor-branch store update: append the `(value, source)`
pair to the key's collected list. -/
def appendVote (l : List (String × List (String × Source))) (key : String)
    (item : String × Source) : List (String × List (String × Source)) :=
  updateAssoc l key (fun xs => xs ++ [item]) ([] : List (String × Source))

/-- The four per-key stores `_aggregate_data_for_form` fills while walking
the documents: `final_aggregated`'s SUM entries, `all_values_for_modal_keys`,
`aggregated_lists` and `proprietor_data`. -/
structure AggStores where
  sums : List (String × (ℚ × List Source))
  votesModal : List (String × List (String × Source))
  votesList : List (String × List (String × Source))
  votesProp : List (String × List (String × Source))

/-- The per-entry dispatch of the aggregation loop: clean the value, drop it
when `None`, then route it by key to the SUM / MODE / LIST / proprietor
branch (in that `elif` order; proprietor only for proprietor documents). -/
def processEntry (sm mo li pr : List String) (isPropDoc : Bool)
    (st : AggStores) (kv : String × RawEntry) : AggStores :=
  match clean_string kv.2.value with
  | none => st
  | some cleaned =>
    if kv.1 ∈ sm then
      { st with sums := sumUpdate st.sums kv.1 cleaned kv.2.source }
    else if kv.1 ∈ mo then
      { st with votesModal := appendVote st.votesModal kv.1 (cleaned, kv.2.source) }
    else if kv.1 ∈ li then
      { st with votesList := appendVote st.votesList kv.1 (cleaned, kv.2.source) }
    else if kv.1 ∈ pr ∧ isPropDoc = true then
      { st with votesProp := appendVote st.votesProp kv.1 (cleaned, kv.2.source) }
    else st

/-- `is_proprietor_doc`: some proprietor-indicator key occurs in the
document's data. -/
def isProprietorDoc (pr : List String) (doc : DocumentData) : Bool :=
  pr.any (fun k => (alookup doc k).isSome)

/-- Process all entries of one document. -/
def processDocument (sm mo li pr : List String) (st : AggStores) (doc : DocumentData) :
    AggStores :=
  doc.foldl (processEntry sm mo li pr (isProprietorDoc pr doc)) st

/-- Process all documents of one type. -/
def processDocs (sm mo li pr : List String) (st : AggStores) (docs : List DocumentData) :
    AggStores :=
  docs.foldl (processDocument sm mo li pr) st

/-- The main aggregation walk: relevant doc types in the given order, each
type's documents (if present in the input), each document's entries. -/
def processAll (input : DataByType) (rel sm mo li pr : List String) : AggStores :=
  rel.foldl
    (fun st dt =>
      match alookup input dt with
      | some docs => processDocs sm mo li pr st docs
      | none => st)
    ⟨[], [], [], []⟩

/-- Distinct values in first-encounter order (`Counter` key order). -/
def distinctVals (vs : List String) : List String :=
  vs.foldl (fun acc v => if v ∈ acc then acc else acc ++ [v]) []

/-- Scan of the candidate list keeping the first value whose count is
maximal: later candidates replace the best only on a strictly greater count,
matching the stability of `Counter(...).most_common(1)`. -/
def pickBest (vs : List String) (best : String) : List String → String
  | [] => best
  | c :: cs =>
    if vs.count best < vs.count c then pickBest vs c cs
    else pickBest vs best cs

/-- `Counter(values).most_common(1)[0][0]` for a (possibly empty) value
list: the most frequent value, ties broken by first encounter. -/
def mostCommon (vs : List String) : Option String :=
  match distinctVals vs with
  | [] => none
  | c :: cs => some (pickBest vs c cs)

/-- Source set of a collected vote list, deduplicated in first-occurrence
order (the Python `set` then `sorted(list(...))`). -/
def dedupSources (l : List Source) : List Source :=
  l.foldl addIfAbsent []

/-- Finalisation of a MODE/proprietor vote list: the winning value together
with the sources of exactly the items that reported it. -/
def finalizeVotes (l : List (String × Source)) : Option (String × List Source) :=
  match mostCommon (l.map Prod.fst) with
  | none => none
  | some w => some (w, dedupSources ((l.filter (fun p => p.1 = w)).map Prod.snd))

/-- A value of the final aggregated map: a SUM total, a MODE/proprietor
scalar, or a LIST collection of `(value, source)` items. -/
inductive AggValue where
  | sumv (value : ℚ) (sources : List Source)
  | scalar (value : String) (sources : List Source)
  | listv (items : List (String × Source))
deriving DecidableEq

/-- Sources credited by an aggregated value (per-item sources for LIST). -/
def AggValue.sourcesList : AggValue → List Source
  | .sumv _ srcs => srcs
  | .scalar _ srcs => srcs
  | .listv items => items.map Prod.snd

/-- Dictionary overwrite `d[key] = v` on an association list. -/
def aoverwrite (m : List (String × AggValue)) (key : String) (v : AggValue) :
    List (String × AggValue) :=
  updateAssoc m key (fun _ => v) v

/-- The final `final_aggregated` map: SUM entries are created during the
walk; the post-aggregation phase then writes the finalised MODE entries, the
proprietor entries and the non-empty LIST entries (in that program order). -/
def aggregateAll (input : DataByType) (rel sm mo li pr : List String) :
    List (String × AggValue) :=
  let st := processAll input rel sm mo li pr
  let base := st.sums.map (fun kv => (kv.1, AggValue.sumv kv.2.1 kv.2.2))
  let m1 := st.votesModal.foldl
    (fun acc kv =>
      match finalizeVotes kv.2 with
      | some ws => aoverwrite acc kv.1 (AggValue.scalar ws.1 ws.2)
      | none => acc)
    base
  let m2 := st.votesProp.foldl
    (fun acc kv =>
      match finalizeVotes kv.2 with
      | some ws => aoverwrite acc kv.1 (AggValue.scalar ws.1 ws.2)
      | none => acc)
    m1
  st.votesList.foldl
    (fun acc kv => if kv.2 = [] then acc else aoverwrite acc kv.1 (AggValue.listv kv.2))
    m2

/-- Lookup of one key in the Aggregator's result. -/
def aggregateLookup (input : DataByType) (rel sm mo li pr : List String) (key : String) :
    Option AggValue :=
  alookup (aggregateAll input rel sm mo li pr) key

/-! ### Specification-side views of the aggregation walk -/

/-- The `(cleaned value, source)` contributions one document makes to a key
(entries whose value cleans to `None` are dropped). -/
def docContributions (key : String) (doc : DocumentData) : List (String × Source) :=
  doc.filterMap
    (fun kv =>
      if kv.1 = key then (clean_string kv.2.value).map (fun c => (c, kv.2.source))
      else none)

/-- Contributions of a list of documents, in document order. -/
def docsContributions (key : String) (docs : List DocumentData) : List (String × Source) :=
  (docs.map (docContributions key)).flatten

/-- The full contribution stream of a key over the aggregation walk: relevant
types in order, documents in order, entries in order. -/
def contributionStream (input : DataByType) (rel : List String) (key : String) :
    List (String × Source) :=
  (rel.map (fun dt => docsContributions key ((alookup input dt).getD []))).flatten

/-- Contributions of one document, kept only for proprietor documents. -/
def propDocContributions (pr : List String) (key : String) (doc : DocumentData) :
    List (String × Source) :=
  if isProprietorDoc pr doc then docContributions key doc else []

/-- The contribution stream restricted to proprietor documents. -/
def propStream (input : DataByType) (rel pr : List String) (key : String) :
    List (String × Source) :=
  (rel.map (fun dt => (((alookup input dt).getD []).map (propDocContributions pr key)).flatten)).flatten

/-- Folding a contribution stream through the SUM branch from the fresh
`setdefault` entry. -/
def sumSpec (l : List (String × Source)) : ℚ × List Source :=
  l.foldl (fun ts c => sumTry ts c.1 c.2) ((0 : ℚ), ([] : List Source))

/-- SUM store entry evolution: `none` while no contribution has arrived,
then the `sumTry` fold of the contributions seen so far. -/
def applySum (o : Option (ℚ × List Source)) : List (String × Source) → Option (ℚ × List Source)
  | [] => o
  | c :: rest => applySum (some (sumTry (o.getD ((0 : ℚ), [])) c.1 c.2)) rest

/-- Vote store entry evolution: created on the first appended item. -/
def applyVotes (o : Option (List (String × Source))) (l : List (String × Source)) :
    Option (List (String × Source)) :=
  if l = [] then o else some (o.getD [] ++ l)

/-- The numeric value a single contribution adds to a SUM total: its parse
after `[$,()]`-stripping, `0` when unparsable. -/
def contribParse (c : String × Source) : ℚ :=
  (parseDecimalQ (stripSumChars c.1)).getD 0

/-- Reference result of the whole aggregation for one key, proved equal to
`aggregateLookup` below (`aggregateLookup_eq_spec`). -/
def aggregateSpec (input : DataByType) (rel sm mo li pr : List String) (key : String) :
    Option AggValue :=
  let l := contributionStream input rel key
  if key ∈ sm then
    (if l = [] then none else some (AggValue.sumv (sumSpec l).1 (sumSpec l).2))
  else if key ∈ mo then
    (match finalizeVotes l with
     | some ws => some (AggValue.scalar ws.1 ws.2)
     | none => none)
  else if key ∈ li then
    (if l = [] then none else some (AggValue.listv l))
  else if key ∈ pr then
    (match finalizeVotes (propStream input rel pr key) with
     | some ws => some (AggValue.scalar ws.1 ws.2)
     | none => none)
  else none

/-! ### Calculation engine (`_perform_calculations`)

Each form's block is embedded as a function threading the sequential
`_set_field_value` mutations through the structure, together with a record
of the intermediate line values the block computes. -/

/-- `std_deduction_map.get(filing_status, 13850)`: the 2023 standard
deduction by filing status, defaulting to the Single amount for a missing
or unrecognized status. -/
def stdDeductionFor (fs : Option Val) : ℚ :=
  if fs = some (Val.s "Single") then 13850
  else if fs = some (Val.s "MarriedFilingJointly") then 27700
  else if fs = some (Val.s "MarriedFilingSeparately") then 13850
  else if fs = some (Val.s "HeadOfHousehold") then 20800
  else if fs = some (Val.s "QualifyingWidow(er)") then 27700
  else 13850

/-- The Single bracket computation of the 1040 block (also duplicated
verbatim in the block's catch-all `else` arm for unknown statuses).  The
value of the top arm is the one its expression denotes; in the program
that arm never produces it — it raises `TypeError` (the float literal
`16271.75` plus a `Decimal`), which `tax16Raises` below records — so
theorems about completed runs only use this function on `ti ≤ 95375`. -/
def taxSingleBrackets (ti : ℚ) : ℚ :=
  if ti ≤ 11000 then ti * 0.10
  else if ti ≤ 44725 then 1100 + (ti - 11000) * 0.12
  else if ti ≤ 95375 then 5147 + (ti - 44725) * 0.22
  else 16271.75 + (ti - 95375) * 0.24

/-- The MarriedFilingJointly bracket computation of the 1040 block. -/
def taxMarriedJointBrackets (ti : ℚ) : ℚ :=
  if ti ≤ 22000 then ti * 0.10
  else if ti ≤ 89450 then 2200 + (ti - 22000) * 0.12
  else if ti ≤ 190750 then 10294 + (ti - 89450) * 0.22
  else 32580 + (ti - 190750) * 0.24

/-- Round to an integer with ties to even (`Decimal`'s default
`ROUND_HALF_EVEN`). -/
def roundHalfEvenZ (q : ℚ) : ℤ :=
  let n := ⌊q⌋
  let r := q - (n : ℚ)
  if r < 1/2 then n
  else if 1/2 < r then n + 1
  else if n % 2 = 0 then n else n + 1

/-- `x.quantize(Decimal('0.01'))`: round to cents, ties to even. -/
def roundCents (q : ℚ) : ℚ :=
  (roundHalfEvenZ (q * 100) : ℚ) / 100

/-- The intermediate line values of the Form 1040 calculation block,
together with the mutated structure. -/
structure Calc1040 where
  itemized : ℚ
  usedItemized : Bool
  line12 : ℚ
  line14 : ℚ
  line15 : ℚ
  line16 : ℚ
  line18 : ℚ
  line22 : ℚ
  line24 : ℚ
  line33 : ℚ
  line34 : ℚ
  line37 : ℚ
  out : FormStructure
deriving DecidableEq

/-- The `form_type == '1040'` block of `_perform_calculations`: Schedule A
comparison for Line 12, total deductions, taxable income, bracket tax
(quantized to cents), total tax, and the overpaid/owed split.  Reads happen
on the structure as already mutated by the preceding `_set_field_value`
calls, exactly as in the source.  The record holds the values of the
block's exact `Decimal` arithmetic; the `TypeError` the top Single and
catch-all bracket arms raise (float `16271.75` plus `Decimal`) is tracked
separately by `tax16Raises`, and `calc1040Run` below is the step's
observable outcome, so these fields describe the runs that complete. -/
def calc1040Full (s : FormStructure) (c : Cache) : Calc1040 :=
  let schedA := (alookup c "Schedule A").getD []
  -- `if sched_a_structure:` — an absent entry defaults to `{}`, and an
  -- empty dict is falsy, so both fall back to 0.0.
  let itemized := if schedA = [] then 0 else
    get_numeric_value schedA "SchA_Line17_TotalItemizedDeductions"
  let fs := get_field_value s "FilingStatus"
  let std := stdDeductionFor fs
  let usedItemized : Bool := decide (std < itemized)
  let line12 := if usedItemized then itemized else std
  let s1 := set_field_value s "Line12_DeductionAmount" (Val.num line12) "Calculated"
  let s2 := set_field_value s1 "Line12_UsedItemized" (Val.b usedItemized) "Calculated"
  let line13 := get_numeric_value s2 "Line13_QualifiedBusinessIncomeDeduction"
  let line14 := line12 + line13
  let s3 := set_field_value s2 "Line14_TotalDeductions" (Val.num line14) "Calculated"
  let agi := get_numeric_value s3 "Line11_AdjustedGrossIncome"
  let line15 := if agi - line14 < 0 then 0 else agi - line14
  let s4 := set_field_value s3 "Line15_TaxableIncome" (Val.num line15) "Calculated"
  let line16 := roundCents
    (if fs = some (Val.s "Single") then taxSingleBrackets line15
     else if fs = some (Val.s "MarriedFilingJointly") then taxMarriedJointBrackets line15
     else taxSingleBrackets line15)
  let s5 := set_field_value s4 "Line16_Tax" (Val.num line16) "Calculated"
  let line17 := get_numeric_value s5 "Line17_AmountFromSchedule2"
  let line18 := line16 + line17
  let s6 := set_field_value s5 "Line18_TotalTaxBeforeCredits" (Val.num line18) "Calculated"
  let line21 := get_numeric_value s6 "Line21_TotalNonrefundableCredits"
  let line22 := if line18 - line21 < 0 then 0 else line18 - line21
  let s7 := set_field_value s6 "Line22_TaxAfterNonrefundableCredits" (Val.num line22) "Calculated"
  let line23 := get_numeric_value s7 "Line23_OtherTaxes"
  let line24 := line22 + line23
  let s8 := set_field_value s7 "Line24_TotalTax" (Val.num line24) "Calculated"
  let line33 := get_numeric_value s8 "Line33_TotalPayments"
  let line34 := if line24 < line33 then line33 - line24 else 0
  let s9 := set_field_value s8 "Line34_AmountOverpaid" (Val.num line34) "Calculated"
  let line37 := if line33 < line24 then line24 - line33 else 0
  let s10 := set_field_value s9 "Line37_AmountYouOwe" (Val.num line37) "Calculated"
  ⟨itemized, usedItemized, line12, line14, line15, line16, line18,
   line22, line24, line33, line34, line37, s10⟩

/-- The structure returned by the `'1040'` branch. -/
def calc1040 (s : FormStructure) (c : Cache) : FormStructure :=
  (calc1040Full s c).out

/-- The intermediate line values of the Schedule C calculation block. -/
structure CalcSchedC where
  line3 : ℚ
  line5 : ℚ
  line28 : ℚ
  line31 : ℚ
  out : FormStructure
deriving DecidableEq

/-- The `form_type == 'SchedC'` block: gross profit, gross income, the total
of the 23 expense lines 8-27a (`sum([...])`, left-associated from 0), and
net profit/loss.  The Schedule C block never touches the dependency cache. -/
def calcSchedCFull (s : FormStructure) : CalcSchedC :=
  let line1 := get_numeric_value s "Line1_GrossReceiptsSales"
  let line2 := get_numeric_value s "Line2_ReturnsAllowances"
  let line3 := line1 - line2
  let s1 := set_field_value s "Line3_GrossProfit" (Val.num line3) "Calculated"
  let line4 := get_numeric_value s1 "Line4_CostOfGoodsSold"
  let line5 := line3 - line4
  let s2 := set_field_value s1 "Line5_GrossIncome" (Val.num line5) "Calculated"
  let line8 := get_numeric_value s2 "Line8_Advertising"
  let line9 := get_numeric_value s2 "Line9_CarTruckExpenses"
  let line10 := get_numeric_value s2 "Line10_CommissionsFees"
  let line11 := get_numeric_value s2 "Line11_ContractLabor"
  let line12 := get_numeric_value s2 "Line12_Depletion"
  let line13 := get_numeric_value s2 "Line13_DepreciationSection179"
  let line14 := get_numeric_value s2 "Line14_EmployeeBenefitPrograms"
  let line15 := get_numeric_value s2 "Line15_Insurance"
  let line16a := get_numeric_value s2 "Line16a_InterestMortgage"
  let line16b := get_numeric_value s2 "Line16b_InterestOther"
  let line17 := get_numeric_value s2 "Line17_LegalProfessionalServices"
  let line18 := get_numeric_value s2 "Line18_OfficeExpense"
  let line19 := get_numeric_value s2 "Line19_PensionProfitSharing"
  let line20a := get_numeric_value s2 "Line20a_RentLeaseVehicles"
  let line20b := get_numeric_value s2 "Line20b_RentLeaseOther"
  let line21 := get_numeric_value s2 "Line21_RepairsMaintenance"
  let line22 := get_numeric_value s2 "Line22_Supplies"
  let line23 := get_numeric_value s2 "Line23_TaxesLicenses"
  let line24a := get_numeric_value s2 "Line24a_Travel"
  let line24b := get_numeric_value s2 "Line24b_DeductibleMeals"
  let line25 := get_numeric_value s2 "Line25_Utilities"
  let line26 := get_numeric_value s2 "Line26_Wages"
  let line27a := get_numeric_value s2 "Line27a_OtherExpenses"
  let line28 := line8 + line9 + line10 + line11 + line12 + line13 + line14 + line15 +
    line16a + line16b + line17 + line18 + line19 + line20a + line20b +
    line21 + line22 + line23 + line24a + line24b + line25 + line26 + line27a
  let s3 := set_field_value s2 "Line28_TotalExpenses" (Val.num line28) "Calculated"
  let line31 := line5 - line28
  let s4 := set_field_value s3 "Line31_NetProfitLoss" (Val.num line31) "Calculated"
  ⟨line3, line5, line28, line31, s4⟩

/-- The structure returned by the `'SchedC'` branch. -/
def calcSchedC (s : FormStructure) : FormStructure :=
  (calcSchedCFull s).out

/-- The first actions of the `form_type == 'Schedule A'` block, executed
before its crash point: fetch the `'1040'` dependency-cache entry
(defaulting to an empty structure), read its AGI, and write that AGI into
`SchA_Line2_AGI`. -/
def schedAPrefix (s : FormStructure) (c : Cache) : FormStructure :=
  let f1040 := (alookup c "1040").getD []
  let agi := get_numeric_value f1040 "Line11_AdjustedGrossIncome"
  set_field_value s "SchA_Line2_AGI" (Val.num agi) "Calculated"

/-- The `'Schedule A'` calculation step as the driver observes it.  After
the `SchA_Line2_AGI` write and the raw medical-expense read, the block
computes `agi * Decimal('0.075')`; `agi` is the float that
`_get_numeric_value` returned, and a float times a `Decimal` raises
`TypeError`, so the step fails on every run (`none`) and nothing after
that line — the medical floor, the SALT cap, the `FilingStatus` read, the
Line 17 total — ever executes.  The driver catches the exception, records
the form as FAILED and caches no Schedule A entry. -/
def calcScheduleARun (s : FormStructure) (c : Cache) : Option FormStructure :=
  let s1 := schedAPrefix s c
  let _line1 := get_numeric_value s1 "SchA_Line1_MedicalDentalExpenses"
  none

/-- `tax16Raises fs ti`: whether the Line 16 bracket computation of the
1040 block raises `TypeError`.  The top Single arm and the top catch-all
arm compute `16271.75 + (taxable_income - 95375) * Decimal('0.24')` — the
float literal `16271.75` plus a `Decimal` — which raises; the
MarriedFilingJointly top arm uses the int literal `32580`, and int/Decimal
arithmetic is allowed, as it is in all the lower arms (int literals and
`Decimal` factors only). -/
def tax16Raises (fs : Option Val) (ti : ℚ) : Bool :=
  if fs = some (Val.s "Single") then decide (95375 < ti)
  else if fs = some (Val.s "MarriedFilingJointly") then false
  else decide (95375 < ti)

/-- The `'1040'` calculation step as the driver observes it: when the
Line 16 bracket computation raises `TypeError` the step fails (`none`; the
Line 12/14/15 writes already made are discarded along with the structure),
otherwise it returns the fully mutated structure. -/
def calc1040Run (s : FormStructure) (c : Cache) : Option FormStructure :=
  if tax16Raises (get_field_value s "FilingStatus") (calc1040Full s c).line15 then none
  else some (calc1040Full s c).out

/-- The (at most one) contribution a single document entry makes to a key. -/
def entryContribution (key : String) (kv : String × RawEntry) : List (String × Source) :=
  if kv.1 = key then ((clean_string kv.2.value).map (fun c => (c, kv.2.source))).toList
  else []

/-- `proprietor_keys = {"EmployeeName", "EmployeeSSN"}` from
`create_populated_gemini_structure`. -/
def proprietor_keys : List String := ["EmployeeName", "EmployeeSSN"]

/-- The precedence constraints of the fixed processing order: each pair
`(a, b)` requires `a` to be processed before `b`.  This is the claimed
ordering corrected to the source's actual order, where Form 2441 precedes
Schedule 3 (`main_flow.py` notes Form 2441 feeds Schedule 3). -/
def precedencePairs : List (String × String) :=
  [("SchedC", "1040-SE"), ("SchedE", "1040-SE"),
   ("1040-SE", "Schedule 1"),
   ("Schedule 1", "Schedule 2"), ("Schedule 1", "Schedule 3"),
   ("Schedule 2", "Form 2441"),
   ("Form 2441", "Schedule 3"),
   ("Schedule 2", "Form 8812"), ("Schedule 2", "Schedule A"),
   ("Schedule 3", "Form 8812"), ("Schedule 3", "Schedule A"),
   ("SchedC", "1040"), ("SchedE", "1040"), ("1040-SE", "1040"),
   ("Schedule 1", "1040"), ("Schedule 2", "1040"), ("Form 2441", "1040"),
   ("Schedule 3", "1040"), ("Form 8812", "1040"), ("Schedule A", "1040")]

/-! ### Concrete inputs used by witnesses and counterexamples -/

/-- A field with no value yet (as in a blank template). -/
def blankField (n : String) : FormField := ⟨n, none, none⟩

/-- A field holding a numeric value. -/
def numField (n : String) (q : ℚ) : FormField := ⟨n, some (Val.num q), none⟩

/-- A field holding a string value. -/
def strField (n : String) (x : String) : FormField := ⟨n, some (Val.s x), none⟩

/-- Three W-2 documents contributing formatted, parenthesized and
non-numeric values to the SUM key `WagesTipsOtherComp`. -/
def exC1input : DataByType :=
  [("W-2", [[("WagesTipsOtherComp", ⟨some " $1,234.50 ", "w2-a"⟩)],
            [("WagesTipsOtherComp", ⟨some "(500)", "w2-b"⟩)],
            [("WagesTipsOtherComp", ⟨some "abc", "w2-c"⟩)]])]

/-- A single document contributing the parenthesized value `(500)`. -/
def exC1paren : DataByType :=
  [("W-2", [[("WagesTipsOtherComp", ⟨some "(500)", "w2-a"⟩)]])]

/-- A single document whose only SUM contribution fails numeric parsing. -/
def exC3input : DataByType :=
  [("W-2", [[("WagesTipsOtherComp", ⟨some "abc", "w2-a"⟩)]])]

/-- A single document contributing one MODE value. -/
def exC3modal : DataByType :=
  [("W-2", [[("EmployeeAddress", ⟨some "12 Main St", "w2-a"⟩)]])]

/-- Three documents reporting the MODE values `A`, `B`, `A` in that order. -/
def exC6input : DataByType :=
  [("W-2", [[("FilingStatus", ⟨some "A", "w2-a"⟩)],
            [("FilingStatus", ⟨some "B", "w2-b"⟩)],
            [("FilingStatus", ⟨some "A", "w2-c"⟩)]])]

/-- A single document contributing an all-whitespace MODE value. -/
def exC7input : DataByType :=
  [("W-2", [[("EmployeeAddress", ⟨some "   ", "w2-a"⟩)]])]

/-- A Form 1040 structure for a Single filer with AGI 50000 and all
calculated-line fields present but blank. -/
def ex1040 : FormStructure :=
  [("page_1",
    [strField "FilingStatus" "Single",
     numField "Line11_AdjustedGrossIncome" 50000,
     blankField "Line12_DeductionAmount",
     blankField "Line12_UsedItemized",
     blankField "Line14_TotalDeductions",
     blankField "Line15_TaxableIncome",
     blankField "Line16_Tax",
     blankField "Line18_TotalTaxBeforeCredits",
     blankField "Line22_TaxAfterNonrefundableCredits",
     blankField "Line24_TotalTax",
     blankField "Line34_AmountOverpaid",
     blankField "Line37_AmountYouOwe"])]

/-- A cached Schedule A structure with an itemized total of 8000. -/
def exSchedA8000 : FormStructure :=
  [("page_1", [numField "SchA_Line17_TotalItemizedDeductions" 8000])]

/-- A dependency cache holding only the Schedule A result. -/
def exCacheSchedA : Cache := [("Schedule A", exSchedA8000)]

/-- A 1040 structure with total payments 5000 and no other inputs. -/
def exC8 : FormStructure :=
  [("page_1", [blankField "Line34_AmountOverpaid", blankField "Line37_AmountYouOwe",
    numField "Line33_TotalPayments" 5000])]

/-- A 1040 structure with no inputs at all: total tax and total payments
both come out as 0. -/
def exC8eq : FormStructure :=
  [("page_1", [blankField "Line34_AmountOverpaid", blankField "Line37_AmountYouOwe"])]

/-- A Schedule C structure: receipts 100000, returns 2000, COGS 20000 and
30000 of supplies expense, with the calculated lines blank. -/
def exSchedC : FormStructure :=
  [("page_1",
    [numField "Line1_GrossReceiptsSales" 100000,
     numField "Line2_ReturnsAllowances" 2000,
     numField "Line4_CostOfGoodsSold" 20000,
     numField "Line22_Supplies" 30000,
     blankField "Line3_GrossProfit",
     blankField "Line5_GrossIncome",
     blankField "Line28_TotalExpenses",
     blankField "Line31_NetProfitLoss"])]

/-- A 1040 structure with no `FilingStatus` field. -/
def exNoStatus : FormStructure :=
  [("page_1", [blankField "Line12_DeductionAmount"])]

/-- A minimal Schedule A structure holding only the AGI echo field. -/
def exSchedAmed : FormStructure := [("page_1", [blankField "SchA_Line2_AGI"])]

/-- A cached Form 1040 with AGI 100000. -/
def ex1040agi : FormStructure :=
  [("page_1", [numField "Line11_AdjustedGrossIncome" 100000])]

/-- A dependency cache holding only a Form 1040 entry. -/
def cacheWith1040 : Cache := [("1040", ex1040agi)]

/-- A Single filer with AGI 150000: taxable income 136150 lands in the top
Single bracket, whose arm raises `TypeError`. -/
def ex1040crash : FormStructure :=
  [("page_1",
    [strField "FilingStatus" "Single",
     numField "Line11_AdjustedGrossIncome" 150000,
     blankField "Line12_DeductionAmount",
     blankField "Line12_UsedItemized",
     blankField "Line14_TotalDeductions",
     blankField "Line15_TaxableIncome",
     blankField "Line16_Tax",
     blankField "Line18_TotalTaxBeforeCredits",
     blankField "Line22_TaxAfterNonrefundableCredits",
     blankField "Line24_TotalTax",
     blankField "Line34_AmountOverpaid",
     blankField "Line37_AmountYouOwe"])]

/-- A filer with the unrecognized status `Married` and AGI 200000: the
catch-all bracket arm is taken with taxable income 186150 above 95375. -/
def exBadStatus : FormStructure :=
  [("page_1",
    [strField "FilingStatus" "Married",
     numField "Line11_AdjustedGrossIncome" 200000,
     blankField "Line12_DeductionAmount",
     blankField "Line12_UsedItemized",
     blankField "Line14_TotalDeductions",
     blankField "Line15_TaxableIncome",
     blankField "Line16_Tax",
     blankField "Line18_TotalTaxBeforeCredits",
     blankField "Line22_TaxAfterNonrefundableCredits",
     blankField "Line24_TotalTax",
     blankField "Line34_AmountOverpaid",
     blankField "Line37_AmountYouOwe"])]

/-! ### Helper lemmas: association lists -/

theorem alookup_updateAssoc_self {β : Type} (l : List (String × β)) (key : String)
    (f : β → β) (d0 : β) :
    alookup (updateAssoc l key f d0) key = some (f ((alookup l key).getD d0)) := by
  induction l with
  | nil => simp [updateAssoc, alookup]
  | cons hd tl ih =>
    obtain ⟨k, v⟩ := hd
    by_cases hk : k = key
    · subst hk
      simp [updateAssoc, alookup]
    · simp [updateAssoc, alookup, hk, ih]

theorem alookup_updateAssoc_ne {β : Type} (l : List (String × β)) (key key' : String)
    (f : β → β) (d0 : β) (h : key' ≠ key) :
    alookup (updateAssoc l key f d0) key' = alookup l key' := by
  induction l with
  | nil => simp [updateAssoc, alookup, Ne.symm h]
  | cons hd tl ih =>
    obtain ⟨k, v⟩ := hd
    by_cases hk : k = key
    · subst hk
      simp [updateAssoc, alookup, Ne.symm h]
    · by_cases hk' : k = key'
      · subst hk'
        simp [updateAssoc, alookup, hk]
      · simp [updateAssoc, alookup, hk, hk', ih]

theorem alookup_eq_none_iff {β : Type} (l : List (String × β)) (key : String) :
    alookup l key = none ↔ key ∉ l.map Prod.fst := by
  induction l with
  | nil => simp [alookup]
  | cons hd tl ih =>
    obtain ⟨k, v⟩ := hd
    by_cases hk : k = key
    · subst hk
      simp [alookup]
    · simp [alookup, hk, ih, Ne.symm hk]

theorem keys_updateAssoc {β : Type} (l : List (String × β)) (key : String)
    (f : β → β) (d0 : β) :
    (updateAssoc l key f d0).map Prod.fst =
      if key ∈ l.map Prod.fst then l.map Prod.fst else l.map Prod.fst ++ [key] := by
  induction l with
  | nil => simp [updateAssoc]
  | cons hd tl ih =>
    obtain ⟨k, v⟩ := hd
    by_cases hk : k = key
    · subst hk
      simp [updateAssoc]
    · simp only [updateAssoc, if_neg hk, List.map_cons, ih]
      by_cases hmem : key ∈ tl.map Prod.fst
      · simp [hmem, Ne.symm hk]
      · simp [hmem, Ne.symm hk]

theorem nodup_updateAssoc {β : Type} (l : List (String × β)) (key : String)
    (f : β → β) (d0 : β) (h : (l.map Prod.fst).Nodup) :
    ((updateAssoc l key f d0).map Prod.fst).Nodup := by
  rw [keys_updateAssoc]
  by_cases hmem : key ∈ l.map Prod.fst
  · simpa [hmem] using h
  · simpa [hmem] using List.Nodup.append h (by simp) (by simpa using hmem)

/-! ### Helper lemmas: contribution streams -/

theorem docContributions_nil (key : String) : docContributions key [] = [] := rfl

theorem docContributions_cons (key : String) (kv : String × RawEntry) (rest : DocumentData) :
    docContributions key (kv :: rest) =
      entryContribution key kv ++ docContributions key rest := by
  by_cases hk : kv.1 = key
  · cases hc : clean_string kv.2.value with
    | none => simp [docContributions, entryContribution, hk, hc]
    | some c => simp [docContributions, entryContribution, hk, hc]
  · simp [docContributions, entryContribution, hk]

theorem docsContributions_nil (key : String) : docsContributions key [] = [] := rfl

theorem docsContributions_cons (key : String) (doc : DocumentData) (docs : List DocumentData) :
    docsContributions key (doc :: docs) =
      docContributions key doc ++ docsContributions key docs := by
  simp [docsContributions]

theorem contributionStream_nil (input : DataByType) (key : String) :
    contributionStream input [] key = [] := rfl

theorem contributionStream_cons (input : DataByType) (dt : String) (rel : List String)
    (key : String) :
    contributionStream input (dt :: rel) key =
      docsContributions key ((alookup input dt).getD []) ++ contributionStream input rel key := by
  simp [contributionStream]

theorem propStream_nil (input : DataByType) (pr : List String) (key : String) :
    propStream input [] pr key = [] := rfl

theorem propStream_cons (input : DataByType) (dt : String) (rel pr : List String)
    (key : String) :
    propStream input (dt :: rel) pr key =
      (((alookup input dt).getD []).map (propDocContributions pr key)).flatten ++
        propStream input rel pr key := by
  simp [propStream]

/-! ### Helper lemmas: `applySum` / `applyVotes` -/

theorem applySum_nil (o : Option (ℚ × List Source)) : applySum o [] = o := rfl

theorem applySum_some (ts : ℚ × List Source) (l : List (String × Source)) :
    applySum (some ts) l = some (l.foldl (fun a c => sumTry a c.1 c.2) ts) := by
  induction l generalizing ts with
  | nil => rfl
  | cons c rest ih => simp [applySum, ih]

theorem applySum_append (o : Option (ℚ × List Source)) (l₁ l₂ : List (String × Source)) :
    applySum o (l₁ ++ l₂) = applySum (applySum o l₁) l₂ := by
  induction l₁ generalizing o with
  | nil => rfl
  | cons c rest ih => simp [applySum, ih]

theorem applySum_none_of_ne_nil (l : List (String × Source)) (h : l ≠ []) :
    applySum none l = some (sumSpec l) := by
  cases l with
  | nil => exact absurd rfl h
  | cons c rest => simp [applySum, sumSpec, applySum_some]

theorem applyVotes_nil (o : Option (List (String × Source))) : applyVotes o [] = o := rfl

theorem applyVotes_append (o : Option (List (String × Source)))
    (l₁ l₂ : List (String × Source)) :
    applyVotes o (l₁ ++ l₂) = applyVotes (applyVotes o l₁) l₂ := by
  by_cases h1 : l₁ = []
  · subst h1; simp [applyVotes]
  · by_cases h2 : l₂ = []
    · subst h2; simp [applyVotes, h1]
    · have hne : l₁ ++ l₂ ≠ [] := by
        intro hcontra
        exact h1 (List.append_eq_nil.mp hcontra).1
      simp [applyVotes, h1, h2, hne]

theorem applyVotes_none_of_ne_nil (l : List (String × Source)) (h : l ≠ []) :
    applyVotes none l = some l := by
  simp [applyVotes, h]

/-! ### Helper lemmas: store evolution through the aggregation walk -/

theorem sums_processEntry (sm mo li pr : List String) (ipd : Bool) (st : AggStores)
    (kv : String × RawEntry) (key : String) :
    alookup (processEntry sm mo li pr ipd st kv).sums key =
      applySum (alookup st.sums key) (if key ∈ sm then entryContribution key kv else []) := by
  cases hc : clean_string kv.2.value with
  | none =>
    simp [processEntry, hc, entryContribution, applySum_nil]
  | some c =>
    by_cases hsm : kv.1 ∈ sm
    · by_cases hk : kv.1 = key
      · subst hk
        simp only [processEntry, hc, if_pos hsm, entryContribution, if_pos rfl, hc,
          Option.map_some, Option.toList_some, if_pos hsm]
        rw [sumUpdate, alookup_updateAssoc_self]
        rfl
      · simp only [processEntry, hc, if_pos hsm, entryContribution, if_neg hk]
        rw [sumUpdate, alookup_updateAssoc_ne _ _ _ _ _ (fun h => hk h.symm)]
        by_cases hks : key ∈ sm <;> simp [applySum_nil]
    · have hcontrib : (if key ∈ sm then entryContribution key kv else []) = [] := by
        by_cases hks : key ∈ sm
        · have hk : kv.1 ≠ key := fun h => hsm (h ▸ hks)
          simp [entryContribution, hk, hks]
        · simp [hks]
      rw [hcontrib, applySum_nil]
      by_cases hmo : kv.1 ∈ mo
      · simp [processEntry, hc, hsm, hmo]
      · by_cases hli : kv.1 ∈ li
        · simp [processEntry, hc, hsm, hmo, hli]
        · by_cases hpr : kv.1 ∈ pr ∧ ipd = true
          · simp [processEntry, hc, hsm, hmo, hli, hpr]
          · simp [processEntry, hc, hsm, hmo, hli, hpr]

theorem sums_foldEntries (sm mo li pr : List String) (ipd : Bool) (doc : DocumentData) :
    ∀ (st : AggStores) (key : String),
    alookup (doc.foldl (processEntry sm mo li pr ipd) st).sums key =
      applySum (alookup st.sums key) (if key ∈ sm then docContributions key doc else []) := by
  induction doc with
  | nil =>
    intro st key
    by_cases hks : key ∈ sm <;> simp [docContributions_nil, applySum_nil, hks]
  | cons kv rest ih =>
    intro st key
    rw [List.foldl_cons, ih, sums_processEntry, docContributions_cons]
    by_cases hks : key ∈ sm
    · simp only [if_pos hks, applySum_append]
    · simp [hks, applySum_nil]

theorem sums_processDocs (sm mo li pr : List String) (docs : List DocumentData) :
    ∀ (st : AggStores) (key : String),
    alookup (processDocs sm mo li pr st docs).sums key =
      applySum (alookup st.sums key) (if key ∈ sm then docsContributions key docs else []) := by
  induction docs with
  | nil =>
    intro st key
    by_cases hks : key ∈ sm <;> simp [processDocs, docsContributions_nil, applySum_nil, hks]
  | cons doc rest ih =>
    intro st key
    show alookup ((rest.foldl (processDocument sm mo li pr))
      (processDocument sm mo li pr st doc)).sums key = _
    rw [show (rest.foldl (processDocument sm mo li pr))
        (processDocument sm mo li pr st doc) =
        processDocs sm mo li pr (processDocument sm mo li pr st doc) rest from rfl,
      ih, processDocument, sums_foldEntries, docsContributions_cons]
    by_cases hks : key ∈ sm
    · simp only [if_pos hks, applySum_append]
    · simp [hks, applySum_nil]

theorem sums_processAll (input : DataByType) (rel sm mo li pr : List String) (key : String) :
    alookup (processAll input rel sm mo li pr).sums key =
      applySum none (if key ∈ sm then contributionStream input rel key else []) := by
  suffices h : ∀ (rel : List String) (st : AggStores),
      alookup (rel.foldl
        (fun st dt =>
          match alookup input dt with
          | some docs => processDocs sm mo li pr st docs
          | none => st) st).sums key =
      applySum (alookup st.sums key) (if key ∈ sm then contributionStream input rel key else []) by
    rw [processAll, h]
    rfl
  intro rel
  induction rel with
  | nil =>
    intro st
    by_cases hks : key ∈ sm <;> simp [contributionStream_nil, applySum_nil, hks]
  | cons dt rest ih =>
    intro st
    rw [List.foldl_cons, ih, contributionStream_cons]
    have hstep : (match alookup input dt with
        | some docs => processDocs sm mo li pr st docs
        | none => st) = processDocs sm mo li pr st ((alookup input dt).getD []) := by
      cases alookup input dt <;> rfl
    rw [hstep, sums_processDocs]
    by_cases hks : key ∈ sm
    · simp only [if_pos hks, applySum_append]
    · simp [hks, applySum_nil]

theorem processEntry_eq_none (sm mo li pr : List String) (ipd : Bool) (st : AggStores)
    (kv : String × RawEntry) (hc : clean_string kv.2.value = none) :
    processEntry sm mo li pr ipd st kv = st := by
  simp [processEntry, hc]

theorem processEntry_eq_sum (sm mo li pr : List String) (ipd : Bool) (st : AggStores)
    (kv : String × RawEntry) (c : String) (hc : clean_string kv.2.value = some c)
    (hsm : kv.1 ∈ sm) :
    processEntry sm mo li pr ipd st kv =
      { st with sums := sumUpdate st.sums kv.1 c kv.2.source } := by
  simp [processEntry, hc, hsm]

theorem processEntry_eq_modal (sm mo li pr : List String) (ipd : Bool) (st : AggStores)
    (kv : String × RawEntry) (c : String) (hc : clean_string kv.2.value = some c)
    (hsm : kv.1 ∉ sm) (hmo : kv.1 ∈ mo) :
    processEntry sm mo li pr ipd st kv =
      { st with votesModal := appendVote st.votesModal kv.1 (c, kv.2.source) } := by
  simp [processEntry, hc, hsm, hmo]

theorem processEntry_eq_list (sm mo li pr : List String) (ipd : Bool) (st : AggStores)
    (kv : String × RawEntry) (c : String) (hc : clean_string kv.2.value = some c)
    (hsm : kv.1 ∉ sm) (hmo : kv.1 ∉ mo) (hli : kv.1 ∈ li) :
    processEntry sm mo li pr ipd st kv =
      { st with votesList := appendVote st.votesList kv.1 (c, kv.2.source) } := by
  simp [processEntry, hc, hsm, hmo, hli]

theorem processEntry_eq_prop (sm mo li pr : List String) (ipd : Bool) (st : AggStores)
    (kv : String × RawEntry) (c : String) (hc : clean_string kv.2.value = some c)
    (hsm : kv.1 ∉ sm) (hmo : kv.1 ∉ mo) (hli : kv.1 ∉ li) (hpr : kv.1 ∈ pr) (hipd : ipd = true) :
    processEntry sm mo li pr ipd st kv =
      { st with votesProp := appendVote st.votesProp kv.1 (c, kv.2.source) } := by
  simp [processEntry, hc, hsm, hmo, hli, hpr, hipd]

theorem processEntry_eq_skip (sm mo li pr : List String) (ipd : Bool) (st : AggStores)
    (kv : String × RawEntry) (c : String) (hc : clean_string kv.2.value = some c)
    (hsm : kv.1 ∉ sm) (hmo : kv.1 ∉ mo) (hli : kv.1 ∉ li)
    (hpr : ¬ (kv.1 ∈ pr ∧ ipd = true)) :
    processEntry sm mo li pr ipd st kv = st := by
  simp [processEntry, hc, hsm, hmo, hli, hpr]

theorem votesModal_processEntry (sm mo li pr : List String) (ipd : Bool) (st : AggStores)
    (kv : String × RawEntry) (key : String) :
    alookup (processEntry sm mo li pr ipd st kv).votesModal key =
      applyVotes (alookup st.votesModal key)
        (if key ∈ mo ∧ key ∉ sm then entryContribution key kv else []) := by
  cases hc : clean_string kv.2.value with
  | none =>
    rw [processEntry_eq_none _ _ _ _ _ _ _ hc]
    have : (if key ∈ mo ∧ key ∉ sm then entryContribution key kv else []) = [] := by
      by_cases hcond : key ∈ mo ∧ key ∉ sm <;> simp [entryContribution, hc, hcond]
    rw [this, applyVotes_nil]
  | some c =>
    by_cases hsm : kv.1 ∈ sm
    · rw [processEntry_eq_sum _ _ _ _ _ _ _ _ hc hsm]
      have : (if key ∈ mo ∧ key ∉ sm then entryContribution key kv else []) = [] := by
        by_cases hcond : key ∈ mo ∧ key ∉ sm
        · have hk : kv.1 ≠ key := fun h => hcond.2 (h ▸ hsm)
          simp [entryContribution, hk, hcond]
        · simp [hcond]
      rw [this, applyVotes_nil]
    · by_cases hmo : kv.1 ∈ mo
      · rw [processEntry_eq_modal _ _ _ _ _ _ _ _ hc hsm hmo]
        by_cases hk : kv.1 = key
        · subst hk
          show alookup (appendVote st.votesModal kv.1 (c, kv.2.source)) kv.1 = _
          rw [appendVote, alookup_updateAssoc_self]
          simp [entryContribution, hmo, hsm, hc, applyVotes]
        · show alookup (appendVote st.votesModal kv.1 (c, kv.2.source)) key = _
          rw [appendVote, alookup_updateAssoc_ne _ _ _ _ _ (fun h => hk h.symm)]
          have : (if key ∈ mo ∧ key ∉ sm then entryContribution key kv else []) = [] := by
            by_cases hcond : key ∈ mo ∧ key ∉ sm <;> simp [entryContribution, hk, hcond]
          rw [this, applyVotes_nil]
      · have hst : (processEntry sm mo li pr ipd st kv).votesModal = st.votesModal := by
          by_cases hli : kv.1 ∈ li
          · rw [processEntry_eq_list _ _ _ _ _ _ _ _ hc hsm hmo hli]
          · by_cases hpr : kv.1 ∈ pr ∧ ipd = true
            · rw [processEntry_eq_prop _ _ _ _ _ _ _ _ hc hsm hmo hli hpr.1 hpr.2]
            · rw [processEntry_eq_skip _ _ _ _ _ _ _ _ hc hsm hmo hli hpr]
        rw [hst]
        have : (if key ∈ mo ∧ key ∉ sm then entryContribution key kv else []) = [] := by
          by_cases hcond : key ∈ mo ∧ key ∉ sm
          · have hk : kv.1 ≠ key := fun h => hmo (h ▸ hcond.1)
            simp [entryContribution, hk, hcond]
          · simp [hcond]
        rw [this, applyVotes_nil]

theorem votesModal_foldEntries (sm mo li pr : List String) (ipd : Bool) (doc : DocumentData) :
    ∀ (st : AggStores) (key : String),
    alookup (doc.foldl (processEntry sm mo li pr ipd) st).votesModal key =
      applyVotes (alookup st.votesModal key)
        (if key ∈ mo ∧ key ∉ sm then docContributions key doc else []) := by
  induction doc with
  | nil =>
    intro st key
    by_cases hks : key ∈ mo ∧ key ∉ sm <;>
      simp [docContributions_nil, applyVotes_nil, hks]
  | cons kv rest ih =>
    intro st key
    rw [List.foldl_cons, ih, votesModal_processEntry, docContributions_cons]
    by_cases hks : key ∈ mo ∧ key ∉ sm
    · simp only [if_pos hks, applyVotes_append]
    · simp [hks, applyVotes_nil]

theorem votesModal_processDocs (sm mo li pr : List String) (docs : List DocumentData) :
    ∀ (st : AggStores) (key : String),
    alookup (processDocs sm mo li pr st docs).votesModal key =
      applyVotes (alookup st.votesModal key)
        (if key ∈ mo ∧ key ∉ sm then docsContributions key docs else []) := by
  induction docs with
  | nil =>
    intro st key
    by_cases hks : key ∈ mo ∧ key ∉ sm <;>
      simp [processDocs, docsContributions_nil, applyVotes_nil, hks]
  | cons doc rest ih =>
    intro st key
    show alookup ((rest.foldl (processDocument sm mo li pr))
      (processDocument sm mo li pr st doc)).votesModal key = _
    rw [show (rest.foldl (processDocument sm mo li pr))
        (processDocument sm mo li pr st doc) =
        processDocs sm mo li pr (processDocument sm mo li pr st doc) rest from rfl,
      ih, processDocument, votesModal_foldEntries, docsContributions_cons]
    by_cases hks : key ∈ mo ∧ key ∉ sm
    · simp only [if_pos hks, applyVotes_append]
    · simp [hks, applyVotes_nil]

theorem votesModal_processAll (input : DataByType) (rel sm mo li pr : List String)
    (key : String) :
    alookup (processAll input rel sm mo li pr).votesModal key =
      applyVotes none
        (if key ∈ mo ∧ key ∉ sm then contributionStream input rel key else []) := by
  suffices h : ∀ (rel : List String) (st : AggStores),
      alookup (rel.foldl
        (fun st dt =>
          match alookup input dt with
          | some docs => processDocs sm mo li pr st docs
          | none => st) st).votesModal key =
      applyVotes (alookup st.votesModal key)
        (if key ∈ mo ∧ key ∉ sm then contributionStream input rel key else []) by
    rw [processAll, h]
    rfl
  intro rel
  induction rel with
  | nil =>
    intro st
    by_cases hks : key ∈ mo ∧ key ∉ sm <;>
      simp [contributionStream_nil, applyVotes_nil, hks]
  | cons dt rest ih =>
    intro st
    rw [List.foldl_cons, ih, contributionStream_cons]
    have hstep : (match alookup input dt with
        | some docs => processDocs sm mo li pr st docs
        | none => st) = processDocs sm mo li pr st ((alookup input dt).getD []) := by
      cases alookup input dt <;> rfl
    rw [hstep, votesModal_processDocs]
    by_cases hks : key ∈ mo ∧ key ∉ sm
    · simp only [if_pos hks, applyVotes_append]
    · simp [hks, applyVotes_nil]

theorem votesList_processEntry (sm mo li pr : List String) (ipd : Bool) (st : AggStores)
    (kv : String × RawEntry) (key : String) :
    alookup (processEntry sm mo li pr ipd st kv).votesList key =
      applyVotes (alookup st.votesList key)
        (if key ∈ li ∧ key ∉ sm ∧ key ∉ mo then entryContribution key kv else []) := by
  cases hc : clean_string kv.2.value with
  | none =>
    rw [processEntry_eq_none _ _ _ _ _ _ _ hc]
    have : (if key ∈ li ∧ key ∉ sm ∧ key ∉ mo then entryContribution key kv else []) = [] := by
      by_cases hcond : key ∈ li ∧ key ∉ sm ∧ key ∉ mo <;> simp [entryContribution, hc, hcond]
    rw [this, applyVotes_nil]
  | some c =>
    have hskip : ∀ (hk : kv.1 ≠ key ∨ kv.1 ∈ sm ∨ kv.1 ∈ mo),
        (if key ∈ li ∧ key ∉ sm ∧ key ∉ mo then entryContribution key kv else []) = [] := by
      intro hk
      by_cases hcond : key ∈ li ∧ key ∉ sm ∧ key ∉ mo
      · have hkk : kv.1 ≠ key := by
          rcases hk with h | h | h
          · exact h
          · exact fun he => hcond.2.1 (he ▸ h)
          · exact fun he => hcond.2.2 (he ▸ h)
        simp [entryContribution, hkk, hcond]
      · simp [hcond]
    by_cases hsm : kv.1 ∈ sm
    · rw [processEntry_eq_sum _ _ _ _ _ _ _ _ hc hsm, hskip (Or.inr (Or.inl hsm)), applyVotes_nil]
    · by_cases hmo : kv.1 ∈ mo
      · rw [processEntry_eq_modal _ _ _ _ _ _ _ _ hc hsm hmo,
          hskip (Or.inr (Or.inr hmo)), applyVotes_nil]
      · by_cases hli : kv.1 ∈ li
        · rw [processEntry_eq_list _ _ _ _ _ _ _ _ hc hsm hmo hli]
          by_cases hk : kv.1 = key
          · subst hk
            show alookup (appendVote st.votesList kv.1 (c, kv.2.source)) kv.1 = _
            rw [appendVote, alookup_updateAssoc_self]
            simp [entryContribution, hli, hsm, hmo, hc, applyVotes]
          · show alookup (appendVote st.votesList kv.1 (c, kv.2.source)) key = _
            rw [appendVote, alookup_updateAssoc_ne _ _ _ _ _ (fun h => hk h.symm),
              hskip (Or.inl hk), applyVotes_nil]
        · have hst : (processEntry sm mo li pr ipd st kv).votesList = st.votesList := by
            by_cases hpr : kv.1 ∈ pr ∧ ipd = true
            · rw [processEntry_eq_prop _ _ _ _ _ _ _ _ hc hsm hmo hli hpr.1 hpr.2]
            · rw [processEntry_eq_skip _ _ _ _ _ _ _ _ hc hsm hmo hli hpr]
          rw [hst]
          have : (if key ∈ li ∧ key ∉ sm ∧ key ∉ mo then entryContribution key kv else []) = [] := by
            by_cases hcond : key ∈ li ∧ key ∉ sm ∧ key ∉ mo
            · have hk : kv.1 ≠ key := fun h => hli (h ▸ hcond.1)
              simp [entryContribution, hk, hcond]
            · simp [hcond]
          rw [this, applyVotes_nil]

theorem votesList_foldEntries (sm mo li pr : List String) (ipd : Bool) (doc : DocumentData) :
    ∀ (st : AggStores) (key : String),
    alookup (doc.foldl (processEntry sm mo li pr ipd) st).votesList key =
      applyVotes (alookup st.votesList key)
        (if key ∈ li ∧ key ∉ sm ∧ key ∉ mo then docContributions key doc else []) := by
  induction doc with
  | nil =>
    intro st key
    by_cases hks : key ∈ li ∧ key ∉ sm ∧ key ∉ mo <;>
      simp [docContributions_nil, applyVotes_nil, hks]
  | cons kv rest ih =>
    intro st key
    rw [List.foldl_cons, ih, votesList_processEntry, docContributions_cons]
    by_cases hks : key ∈ li ∧ key ∉ sm ∧ key ∉ mo
    · simp only [if_pos hks, applyVotes_append]
    · simp [hks, applyVotes_nil]

theorem votesList_processDocs (sm mo li pr : List String) (docs : List DocumentData) :
    ∀ (st : AggStores) (key : String),
    alookup (processDocs sm mo li pr st docs).votesList key =
      applyVotes (alookup st.votesList key)
        (if key ∈ li ∧ key ∉ sm ∧ key ∉ mo then docsContributions key docs else []) := by
  induction docs with
  | nil =>
    intro st key
    by_cases hks : key ∈ li ∧ key ∉ sm ∧ key ∉ mo <;>
      simp [processDocs, docsContributions_nil, applyVotes_nil, hks]
  | cons doc rest ih =>
    intro st key
    show alookup ((rest.foldl (processDocument sm mo li pr))
      (processDocument sm mo li pr st doc)).votesList key = _
    rw [show (rest.foldl (processDocument sm mo li pr))
        (processDocument sm mo li pr st doc) =
        processDocs sm mo li pr (processDocument sm mo li pr st doc) rest from rfl,
      ih, processDocument, votesList_foldEntries, docsContributions_cons]
    by_cases hks : key ∈ li ∧ key ∉ sm ∧ key ∉ mo
    · simp only [if_pos hks, applyVotes_append]
    · simp [hks, applyVotes_nil]

theorem votesList_processAll (input : DataByType) (rel sm mo li pr : List String)
    (key : String) :
    alookup (processAll input rel sm mo li pr).votesList key =
      applyVotes none
        (if key ∈ li ∧ key ∉ sm ∧ key ∉ mo then contributionStream input rel key else []) := by
  suffices h : ∀ (rel : List String) (st : AggStores),
      alookup (rel.foldl
        (fun st dt =>
          match alookup input dt with
          | some docs => processDocs sm mo li pr st docs
          | none => st) st).votesList key =
      applyVotes (alookup st.votesList key)
        (if key ∈ li ∧ key ∉ sm ∧ key ∉ mo then contributionStream input rel key else []) by
    rw [processAll, h]
    rfl
  intro rel
  induction rel with
  | nil =>
    intro st
    by_cases hks : key ∈ li ∧ key ∉ sm ∧ key ∉ mo <;>
      simp [contributionStream_nil, applyVotes_nil, hks]
  | cons dt rest ih =>
    intro st
    rw [List.foldl_cons, ih, contributionStream_cons]
    have hstep : (match alookup input dt with
        | some docs => processDocs sm mo li pr st docs
        | none => st) = processDocs sm mo li pr st ((alookup input dt).getD []) := by
      cases alookup input dt <;> rfl
    rw [hstep, votesList_processDocs]
    by_cases hks : key ∈ li ∧ key ∉ sm ∧ key ∉ mo
    · simp only [if_pos hks, applyVotes_append]
    · simp [hks, applyVotes_nil]

theorem votesProp_processEntry (sm mo li pr : List String) (ipd : Bool) (st : AggStores)
    (kv : String × RawEntry) (key : String) :
    alookup (processEntry sm mo li pr ipd st kv).votesProp key =
      applyVotes (alookup st.votesProp key)
        (if key ∈ pr ∧ key ∉ sm ∧ key ∉ mo ∧ key ∉ li ∧ ipd = true then
          entryContribution key kv else []) := by
  cases hc : clean_string kv.2.value with
  | none =>
    rw [processEntry_eq_none _ _ _ _ _ _ _ hc]
    have : (if key ∈ pr ∧ key ∉ sm ∧ key ∉ mo ∧ key ∉ li ∧ ipd = true then
        entryContribution key kv else []) = [] := by
      by_cases hcond : key ∈ pr ∧ key ∉ sm ∧ key ∉ mo ∧ key ∉ li ∧ ipd = true <;>
        simp [entryContribution, hc, hcond]
    rw [this, applyVotes_nil]
  | some c =>
    have hskip : (kv.1 ≠ key ∨ kv.1 ∈ sm ∨ kv.1 ∈ mo ∨ kv.1 ∈ li ∨ ipd = false) →
        (if key ∈ pr ∧ key ∉ sm ∧ key ∉ mo ∧ key ∉ li ∧ ipd = true then
          entryContribution key kv else []) = [] := by
      intro hk
      by_cases hcond : key ∈ pr ∧ key ∉ sm ∧ key ∉ mo ∧ key ∉ li ∧ ipd = true
      · have hkk : kv.1 ≠ key := by
          rcases hk with h | h | h | h | h
          · exact h
          · exact fun he => hcond.2.1 (he ▸ h)
          · exact fun he => hcond.2.2.1 (he ▸ h)
          · exact fun he => hcond.2.2.2.1 (he ▸ h)
          · exact absurd hcond.2.2.2.2 (by simp [h])
        simp [entryContribution, hkk, hcond]
      · simp [hcond]
    by_cases hsm : kv.1 ∈ sm
    · rw [processEntry_eq_sum _ _ _ _ _ _ _ _ hc hsm,
        hskip (Or.inr (Or.inl hsm)), applyVotes_nil]
    · by_cases hmo : kv.1 ∈ mo
      · rw [processEntry_eq_modal _ _ _ _ _ _ _ _ hc hsm hmo,
          hskip (Or.inr (Or.inr (Or.inl hmo))), applyVotes_nil]
      · by_cases hli : kv.1 ∈ li
        · rw [processEntry_eq_list _ _ _ _ _ _ _ _ hc hsm hmo hli,
            hskip (Or.inr (Or.inr (Or.inr (Or.inl hli)))), applyVotes_nil]
        · by_cases hpr : kv.1 ∈ pr ∧ ipd = true
          · rw [processEntry_eq_prop _ _ _ _ _ _ _ _ hc hsm hmo hli hpr.1 hpr.2]
            by_cases hk : kv.1 = key
            · subst hk
              show alookup (appendVote st.votesProp kv.1 (c, kv.2.source)) kv.1 = _
              rw [appendVote, alookup_updateAssoc_self]
              simp [entryContribution, hpr.1, hpr.2, hsm, hmo, hli, hc, applyVotes]
            · show alookup (appendVote st.votesProp kv.1 (c, kv.2.source)) key = _
              rw [appendVote, alookup_updateAssoc_ne _ _ _ _ _ (fun h => hk h.symm),
                hskip (Or.inl hk), applyVotes_nil]
          · rw [processEntry_eq_skip _ _ _ _ _ _ _ _ hc hsm hmo hli hpr]
            by_cases hk : kv.1 = key
            · subst hk
              have : (if kv.1 ∈ pr ∧ kv.1 ∉ sm ∧ kv.1 ∉ mo ∧ kv.1 ∉ li ∧ ipd = true then
                  entryContribution kv.1 kv else []) = [] := by
                by_cases hcond : kv.1 ∈ pr ∧ kv.1 ∉ sm ∧ kv.1 ∉ mo ∧ kv.1 ∉ li ∧ ipd = true
                · exact absurd ⟨hcond.1, hcond.2.2.2.2⟩ hpr
                · simp [hcond]
              rw [this, applyVotes_nil]
            · rw [hskip (Or.inl hk), applyVotes_nil]

theorem votesProp_foldEntries (sm mo li pr : List String) (ipd : Bool) (doc : DocumentData) :
    ∀ (st : AggStores) (key : String),
    alookup (doc.foldl (processEntry sm mo li pr ipd) st).votesProp key =
      applyVotes (alookup st.votesProp key)
        (if key ∈ pr ∧ key ∉ sm ∧ key ∉ mo ∧ key ∉ li ∧ ipd = true then
          docContributions key doc else []) := by
  induction doc with
  | nil =>
    intro st key
    by_cases hks : key ∈ pr ∧ key ∉ sm ∧ key ∉ mo ∧ key ∉ li ∧ ipd = true <;>
      simp [docContributions_nil, applyVotes_nil, hks]
  | cons kv rest ih =>
    intro st key
    rw [List.foldl_cons, ih, votesProp_processEntry, docContributions_cons]
    by_cases hks : key ∈ pr ∧ key ∉ sm ∧ key ∉ mo ∧ key ∉ li ∧ ipd = true
    · simp only [if_pos hks, applyVotes_append]
    · simp [hks, applyVotes_nil]

theorem votesProp_processDocument (sm mo li pr : List String) (doc : DocumentData)
    (st : AggStores) (key : String) :
    alookup (processDocument sm mo li pr st doc).votesProp key =
      applyVotes (alookup st.votesProp key)
        (if key ∈ pr ∧ key ∉ sm ∧ key ∉ mo ∧ key ∉ li then
          propDocContributions pr key doc else []) := by
  rw [processDocument, votesProp_foldEntries]
  by_cases hks : key ∈ pr ∧ key ∉ sm ∧ key ∉ mo ∧ key ∉ li
  · cases hipd : isProprietorDoc pr doc
    · have : ¬ (key ∈ pr ∧ key ∉ sm ∧ key ∉ mo ∧ key ∉ li ∧ isProprietorDoc pr doc = true) := by
        simp [hipd]
      simp [this, hks, propDocContributions, hipd, applyVotes_nil]
    · have : key ∈ pr ∧ key ∉ sm ∧ key ∉ mo ∧ key ∉ li ∧ isProprietorDoc pr doc = true :=
        ⟨hks.1, hks.2.1, hks.2.2.1, hks.2.2.2, hipd⟩
      simp [this, hks, propDocContributions, hipd]
  · have : ¬ (key ∈ pr ∧ key ∉ sm ∧ key ∉ mo ∧ key ∉ li ∧ isProprietorDoc pr doc = true) := by
      intro hcontra
      exact hks ⟨hcontra.1, hcontra.2.1, hcontra.2.2.1, hcontra.2.2.2.1⟩
    simp [this, hks, applyVotes_nil]

theorem votesProp_processDocs (sm mo li pr : List String) (docs : List DocumentData) :
    ∀ (st : AggStores) (key : String),
    alookup (processDocs sm mo li pr st docs).votesProp key =
      applyVotes (alookup st.votesProp key)
        (if key ∈ pr ∧ key ∉ sm ∧ key ∉ mo ∧ key ∉ li then
          (docs.map (propDocContributions pr key)).flatten else []) := by
  induction docs with
  | nil =>
    intro st key
    by_cases hks : key ∈ pr ∧ key ∉ sm ∧ key ∉ mo ∧ key ∉ li <;>
      simp [processDocs, applyVotes_nil, hks]
  | cons doc rest ih =>
    intro st key
    show alookup ((rest.foldl (processDocument sm mo li pr))
      (processDocument sm mo li pr st doc)).votesProp key = _
    rw [show (rest.foldl (processDocument sm mo li pr))
        (processDocument sm mo li pr st doc) =
        processDocs sm mo li pr (processDocument sm mo li pr st doc) rest from rfl,
      ih, votesProp_processDocument]
    by_cases hks : key ∈ pr ∧ key ∉ sm ∧ key ∉ mo ∧ key ∉ li
    · simp only [if_pos hks, List.map_cons, List.flatten_cons, applyVotes_append]
    · simp [hks, applyVotes_nil]

theorem votesProp_processAll (input : DataByType) (rel sm mo li pr : List String)
    (key : String) :
    alookup (processAll input rel sm mo li pr).votesProp key =
      applyVotes none
        (if key ∈ pr ∧ key ∉ sm ∧ key ∉ mo ∧ key ∉ li then
          propStream input rel pr key else []) := by
  suffices h : ∀ (rel : List String) (st : AggStores),
      alookup (rel.foldl
        (fun st dt =>
          match alookup input dt with
          | some docs => processDocs sm mo li pr st docs
          | none => st) st).votesProp key =
      applyVotes (alookup st.votesProp key)
        (if key ∈ pr ∧ key ∉ sm ∧ key ∉ mo ∧ key ∉ li then
          propStream input rel pr key else []) by
    rw [processAll, h]
    rfl
  intro rel
  induction rel with
  | nil =>
    intro st
    by_cases hks : key ∈ pr ∧ key ∉ sm ∧ key ∉ mo ∧ key ∉ li <;>
      simp [propStream_nil, applyVotes_nil, hks]
  | cons dt rest ih =>
    intro st
    rw [List.foldl_cons, ih, propStream_cons]
    have hstep : (match alookup input dt with
        | some docs => processDocs sm mo li pr st docs
        | none => st) = processDocs sm mo li pr st ((alookup input dt).getD []) := by
      cases alookup input dt <;> rfl
    rw [hstep, votesProp_processDocs]
    by_cases hks : key ∈ pr ∧ key ∉ sm ∧ key ∉ mo ∧ key ∉ li
    · simp only [if_pos hks, applyVotes_append]
    · simp [hks, applyVotes_nil]

/-! ### Helper lemmas: assembling the final aggregated map -/

theorem alookup_aoverwrite_self (m : List (String × AggValue)) (k : String) (v : AggValue) :
    alookup (aoverwrite m k v) k = some v := by
  rw [aoverwrite, alookup_updateAssoc_self]

theorem alookup_aoverwrite_ne (m : List (String × AggValue)) (k key : String) (v : AggValue)
    (h : key ≠ k) :
    alookup (aoverwrite m k v) key = alookup m key := by
  rw [aoverwrite, alookup_updateAssoc_ne _ _ _ _ _ h]

theorem alookup_map_sumv (l : List (String × (ℚ × List Source))) (key : String) :
    alookup (l.map (fun kv => (kv.1, AggValue.sumv kv.2.1 kv.2.2))) key =
      (alookup l key).map (fun ts => AggValue.sumv ts.1 ts.2) := by
  induction l with
  | nil => rfl
  | cons hd tl ih =>
    obtain ⟨k, ts⟩ := hd
    by_cases hk : k = key
    · subst hk
      simp [alookup]
    · simp [alookup, hk, ih]

/-- One of `AggStores`' stores keeps duplicate-free keys. -/
def StoresNodup (st : AggStores) : Prop :=
  (st.sums.map Prod.fst).Nodup ∧ (st.votesModal.map Prod.fst).Nodup ∧
    (st.votesList.map Prod.fst).Nodup ∧ (st.votesProp.map Prod.fst).Nodup

theorem storesNodup_processEntry (sm mo li pr : List String) (ipd : Bool) (st : AggStores)
    (kv : String × RawEntry) (h : StoresNodup st) :
    StoresNodup (processEntry sm mo li pr ipd st kv) := by
  obtain ⟨h1, h2, h3, h4⟩ := h
  cases hc : clean_string kv.2.value with
  | none => rw [processEntry_eq_none _ _ _ _ _ _ _ hc]; exact ⟨h1, h2, h3, h4⟩
  | some c =>
    by_cases hsm : kv.1 ∈ sm
    · rw [processEntry_eq_sum _ _ _ _ _ _ _ _ hc hsm]
      exact ⟨nodup_updateAssoc _ _ _ _ h1, h2, h3, h4⟩
    · by_cases hmo : kv.1 ∈ mo
      · rw [processEntry_eq_modal _ _ _ _ _ _ _ _ hc hsm hmo]
        exact ⟨h1, nodup_updateAssoc _ _ _ _ h2, h3, h4⟩
      · by_cases hli : kv.1 ∈ li
        · rw [processEntry_eq_list _ _ _ _ _ _ _ _ hc hsm hmo hli]
          exact ⟨h1, h2, nodup_updateAssoc _ _ _ _ h3, h4⟩
        · by_cases hpr : kv.1 ∈ pr ∧ ipd = true
          · rw [processEntry_eq_prop _ _ _ _ _ _ _ _ hc hsm hmo hli hpr.1 hpr.2]
            exact ⟨h1, h2, h3, nodup_updateAssoc _ _ _ _ h4⟩
          · rw [processEntry_eq_skip _ _ _ _ _ _ _ _ hc hsm hmo hli hpr]
            exact ⟨h1, h2, h3, h4⟩

theorem foldl_preserve {α β : Type} (P : α → Prop) (f : α → β → α)
    (h : ∀ a b, P a → P (f a b)) :
    ∀ (l : List β) (a : α), P a → P (l.foldl f a) := by
  intro l
  induction l with
  | nil => intro a ha; exact ha
  | cons b rest ih => intro a ha; exact ih _ (h a b ha)

theorem storesNodup_processAll (input : DataByType) (rel sm mo li pr : List String) :
    StoresNodup (processAll input rel sm mo li pr) := by
  apply foldl_preserve StoresNodup
  · intro st dt hst
    cases hdt : alookup input dt with
    | none => exact hst
    | some docs =>
      show StoresNodup (processDocs sm mo li pr st docs)
      apply foldl_preserve StoresNodup
      · intro st' doc hst'
        exact foldl_preserve StoresNodup _
          (fun a b ha => storesNodup_processEntry _ _ _ _ _ a b ha) _ _ hst'
      · exact hst
  · exact ⟨List.nodup_nil, List.nodup_nil, List.nodup_nil, List.nodup_nil⟩

theorem scalarFold_lookup_not_mem (store : List (String × List (String × Source)))
    (acc : List (String × AggValue)) (key : String) (h : key ∉ store.map Prod.fst) :
    alookup (store.foldl
      (fun acc kv =>
        match finalizeVotes kv.2 with
        | some ws => aoverwrite acc kv.1 (AggValue.scalar ws.1 ws.2)
        | none => acc) acc) key = alookup acc key := by
  induction store generalizing acc with
  | nil => rfl
  | cons hd tl ih =>
    obtain ⟨k, l⟩ := hd
    have hk : key ≠ k := by
      intro he
      exact h (by simp [he])
    have htl : key ∉ tl.map Prod.fst := fun hmem => h (by simp [hmem])
    rw [List.foldl_cons, ih _ htl]
    cases hf : finalizeVotes l with
    | none => rfl
    | some ws => simp [alookup_aoverwrite_ne _ _ _ _ hk]

theorem scalarFold_lookup (store : List (String × List (String × Source)))
    (hnd : (store.map Prod.fst).Nodup) (acc : List (String × AggValue)) (key : String) :
    alookup (store.foldl
      (fun acc kv =>
        match finalizeVotes kv.2 with
        | some ws => aoverwrite acc kv.1 (AggValue.scalar ws.1 ws.2)
        | none => acc) acc) key =
      match alookup store key with
      | some l =>
        (match finalizeVotes l with
         | some ws => some (AggValue.scalar ws.1 ws.2)
         | none => alookup acc key)
      | none => alookup acc key := by
  induction store generalizing acc with
  | nil => rfl
  | cons hd tl ih =>
    obtain ⟨k, l⟩ := hd
    have hnd' : (tl.map Prod.fst).Nodup := (List.nodup_cons.mp hnd).2
    by_cases hk : k = key
    · subst hk
      have hnotmem : k ∉ tl.map Prod.fst := (List.nodup_cons.mp hnd).1
      rw [List.foldl_cons, scalarFold_lookup_not_mem _ _ _ hnotmem]
      cases hf : finalizeVotes l with
      | none => simp [alookup, hf]
      | some ws => simp [alookup, hf, alookup_aoverwrite_self]
    · rw [List.foldl_cons, ih hnd']
      have hlk : alookup ((k, l) :: tl) key = alookup tl key := by simp [alookup, hk]
      rw [hlk]
      cases hf : finalizeVotes l with
      | none => rfl
      | some ws =>
        have hacc : alookup (aoverwrite acc k (AggValue.scalar ws.1 ws.2)) key =
            alookup acc key := alookup_aoverwrite_ne _ _ _ _ (fun he => hk he.symm)
        cases alookup tl key with
        | none => simp [hacc]
        | some l' =>
          cases hf' : finalizeVotes l' <;> simp [hf', hacc]

theorem listFold_lookup_not_mem (store : List (String × List (String × Source)))
    (acc : List (String × AggValue)) (key : String) (h : key ∉ store.map Prod.fst) :
    alookup (store.foldl
      (fun acc kv =>
        if kv.2 = [] then acc else aoverwrite acc kv.1 (AggValue.listv kv.2)) acc) key =
      alookup acc key := by
  induction store generalizing acc with
  | nil => rfl
  | cons hd tl ih =>
    obtain ⟨k, l⟩ := hd
    have hk : key ≠ k := by
      intro he
      exact h (by simp [he])
    have htl : key ∉ tl.map Prod.fst := fun hmem => h (by simp [hmem])
    rw [List.foldl_cons, ih _ htl]
    by_cases hl : l = []
    · simp [hl]
    · simp [hl, alookup_aoverwrite_ne _ _ _ _ hk]

theorem listFold_lookup (store : List (String × List (String × Source)))
    (hnd : (store.map Prod.fst).Nodup) (acc : List (String × AggValue)) (key : String) :
    alookup (store.foldl
      (fun acc kv =>
        if kv.2 = [] then acc else aoverwrite acc kv.1 (AggValue.listv kv.2)) acc) key =
      match alookup store key with
      | some l => (if l = [] then alookup acc key else some (AggValue.listv l))
      | none => alookup acc key := by
  induction store generalizing acc with
  | nil => rfl
  | cons hd tl ih =>
    obtain ⟨k, l⟩ := hd
    have hnd' : (tl.map Prod.fst).Nodup := (List.nodup_cons.mp hnd).2
    by_cases hk : k = key
    · subst hk
      have hnotmem : k ∉ tl.map Prod.fst := (List.nodup_cons.mp hnd).1
      rw [List.foldl_cons, listFold_lookup_not_mem _ _ _ hnotmem]
      by_cases hl : l = []
      · simp [alookup, hl]
      · simp [alookup, hl, alookup_aoverwrite_self]
    · rw [List.foldl_cons, ih hnd']
      have hlk : alookup ((k, l) :: tl) key = alookup tl key := by simp [alookup, hk]
      rw [hlk]
      by_cases hl : l = []
      · simp [hl]
      · have hacc : alookup (aoverwrite acc k (AggValue.listv l)) key = alookup acc key :=
          alookup_aoverwrite_ne _ _ _ _ (fun he => hk he.symm)
        simp only [hl, if_neg hl, if_false]
        cases alookup tl key with
        | none => simp [hacc]
        | some l' =>
          by_cases hl' : l' = [] <;> simp [hl', hacc]

theorem aggregateLookup_eq_spec (input : DataByType) (rel sm mo li pr : List String)
    (key : String) :
    aggregateLookup input rel sm mo li pr key = aggregateSpec input rel sm mo li pr key := by
  obtain ⟨nd1, nd2, nd3, nd4⟩ := storesNodup_processAll input rel sm mo li pr
  simp only [aggregateLookup, aggregateAll]
  rw [listFold_lookup _ nd3, scalarFold_lookup _ nd4, scalarFold_lookup _ nd2,
    alookup_map_sumv, sums_processAll, votesModal_processAll, votesList_processAll,
    votesProp_processAll]
  by_cases hs : key ∈ sm
  · have hc2 : ¬ (key ∈ mo ∧ key ∉ sm) := fun h => h.2 hs
    have hc3 : ¬ (key ∈ li ∧ key ∉ sm ∧ key ∉ mo) := fun h => h.2.1 hs
    have hc4 : ¬ (key ∈ pr ∧ key ∉ sm ∧ key ∉ mo ∧ key ∉ li) := fun h => h.2.1 hs
    rw [if_neg hc2, if_neg hc3, if_neg hc4, if_pos hs]
    by_cases hl : contributionStream input rel key = []
    · rw [hl]
      simp [aggregateSpec, hs, hl, applySum_nil, applyVotes_nil]
    · rw [applySum_none_of_ne_nil _ hl]
      simp [aggregateSpec, hs, hl, applySum_nil, applyVotes_nil]
  · rw [if_neg hs]
    by_cases hm : key ∈ mo
    · have hc2 : key ∈ mo ∧ key ∉ sm := ⟨hm, hs⟩
      have hc3 : ¬ (key ∈ li ∧ key ∉ sm ∧ key ∉ mo) := fun h => h.2.2 hm
      have hc4 : ¬ (key ∈ pr ∧ key ∉ sm ∧ key ∉ mo ∧ key ∉ li) := fun h => h.2.2.1 hm
      rw [if_pos hc2, if_neg hc3, if_neg hc4]
      by_cases hl : contributionStream input rel key = []
      · rw [hl]
        simp [aggregateSpec, hs, hm, hl, applySum_nil, applyVotes_nil, finalizeVotes,
          mostCommon, distinctVals]
      · rw [applyVotes_none_of_ne_nil _ hl]
        cases hf : finalizeVotes (contributionStream input rel key) with
        | none => simp [aggregateSpec, hs, hm, hf, applySum_nil, applyVotes_nil]
        | some ws => simp [aggregateSpec, hs, hm, hf, applySum_nil, applyVotes_nil]
    · by_cases hli : key ∈ li
      · have hc3 : key ∈ li ∧ key ∉ sm ∧ key ∉ mo := ⟨hli, hs, hm⟩
        have hc2 : ¬ (key ∈ mo ∧ key ∉ sm) := fun h => hm h.1
        have hc4 : ¬ (key ∈ pr ∧ key ∉ sm ∧ key ∉ mo ∧ key ∉ li) := fun h => h.2.2.2 hli
        rw [if_pos hc3, if_neg hc2, if_neg hc4]
        by_cases hl : contributionStream input rel key = []
        · rw [hl]
          simp [aggregateSpec, hs, hm, hli, hl, applySum_nil, applyVotes_nil]
        · rw [applyVotes_none_of_ne_nil _ hl]
          simp [aggregateSpec, hs, hm, hli, hl, applySum_nil, applyVotes_nil]
      · by_cases hp : key ∈ pr
        · have hc4 : key ∈ pr ∧ key ∉ sm ∧ key ∉ mo ∧ key ∉ li := ⟨hp, hs, hm, hli⟩
          have hc2 : ¬ (key ∈ mo ∧ key ∉ sm) := fun h => hm h.1
          have hc3 : ¬ (key ∈ li ∧ key ∉ sm ∧ key ∉ mo) := fun h => hli h.1
          rw [if_pos hc4, if_neg hc2, if_neg hc3]
          by_cases hl : propStream input rel pr key = []
          · rw [hl]
            simp [aggregateSpec, hs, hm, hli, hp, hl, applySum_nil, applyVotes_nil,
              finalizeVotes, mostCommon, distinctVals]
          · rw [applyVotes_none_of_ne_nil _ hl]
            cases hf : finalizeVotes (propStream input rel pr key) with
            | none => simp [aggregateSpec, hs, hm, hli, hp, hf, applySum_nil, applyVotes_nil]
            | some ws => simp [aggregateSpec, hs, hm, hli, hp, hf, applySum_nil, applyVotes_nil]
        · have hc2 : ¬ (key ∈ mo ∧ key ∉ sm) := fun h => hm h.1
          have hc3 : ¬ (key ∈ li ∧ key ∉ sm ∧ key ∉ mo) := fun h => hli h.1
          have hc4 : ¬ (key ∈ pr ∧ key ∉ sm ∧ key ∉ mo ∧ key ∉ li) := fun h => hp h.1
          rw [if_neg hc2, if_neg hc3, if_neg hc4]
          simp [aggregateSpec, hs, hm, hli, hp, applySum_nil, applyVotes_nil]

/-! ### Helper lemmas: mode selection and source sets -/

theorem mem_foldl_distinct (vs : List String) :
    ∀ (acc : List String) (x : String),
    (x ∈ vs.foldl (fun acc v => if v ∈ acc then acc else acc ++ [v]) acc) ↔
      x ∈ acc ∨ x ∈ vs := by
  induction vs with
  | nil => intro acc x; simp
  | cons v rest ih =>
    intro acc x
    rw [List.foldl_cons, ih]
    by_cases hv : v ∈ acc
    · rw [if_pos hv]
      constructor
      · rintro (h | h)
        · exact Or.inl h
        · exact Or.inr (List.mem_cons_of_mem _ h)
      · rintro (h | h)
        · exact Or.inl h
        · rcases List.mem_cons.mp h with h | h
          · exact Or.inl (h ▸ hv)
          · exact Or.inr h
    · rw [if_neg hv]
      constructor
      · rintro (h | h)
        · rcases List.mem_append.mp h with h | h
          · exact Or.inl h
          · exact Or.inr (List.mem_cons.mpr (Or.inl (List.mem_singleton.mp h)))
        · exact Or.inr (List.mem_cons_of_mem _ h)
      · rintro (h | h)
        · exact Or.inl (List.mem_append.mpr (Or.inl h))
        · rcases List.mem_cons.mp h with h | h
          · exact Or.inl (List.mem_append.mpr (Or.inr (by simp [h])))
          · exact Or.inr h

theorem distinctVals_mem (vs : List String) (x : String) :
    x ∈ distinctVals vs ↔ x ∈ vs := by
  rw [distinctVals, mem_foldl_distinct]
  simp

theorem pickBest_eq_or_mem (vs : List String) :
    ∀ (cs : List String) (b : String), pickBest vs b cs = b ∨ pickBest vs b cs ∈ cs := by
  intro cs
  induction cs with
  | nil => intro b; exact Or.inl rfl
  | cons c rest ih =>
    intro b
    rw [pickBest]
    by_cases hlt : vs.count b < vs.count c
    · rw [if_pos hlt]
      rcases ih c with h | h
      · exact Or.inr (List.mem_cons.mpr (Or.inl h))
      · exact Or.inr (List.mem_cons_of_mem _ h)
    · rw [if_neg hlt]
      rcases ih b with h | h
      · exact Or.inl h
      · exact Or.inr (List.mem_cons_of_mem _ h)

theorem pickBest_count_ge_start (vs : List String) :
    ∀ (cs : List String) (b : String), vs.count b ≤ vs.count (pickBest vs b cs) := by
  intro cs
  induction cs with
  | nil => intro b; exact le_refl _
  | cons c rest ih =>
    intro b
    rw [pickBest]
    by_cases hlt : vs.count b < vs.count c
    · rw [if_pos hlt]
      exact le_trans (le_of_lt hlt) (ih c)
    · rw [if_neg hlt]
      exact ih b

theorem pickBest_count_ge (vs : List String) :
    ∀ (cs : List String) (b : String) (v : String), v ∈ cs →
      vs.count v ≤ vs.count (pickBest vs b cs) := by
  intro cs
  induction cs with
  | nil => intro b v hv; exact absurd hv (List.not_mem_nil v)
  | cons c rest ih =>
    intro b v hv
    rw [pickBest]
    rcases List.mem_cons.mp hv with hvc | hvr
    · subst hvc
      by_cases hlt : vs.count b < vs.count v
      · rw [if_pos hlt]
        exact pickBest_count_ge_start vs rest v
      · rw [if_neg hlt]
        exact le_trans (not_lt.mp hlt) (pickBest_count_ge_start vs rest b)
    · by_cases hlt : vs.count b < vs.count c
      · rw [if_pos hlt]
        exact ih c v hvr
      · rw [if_neg hlt]
        exact ih b v hvr

theorem pickBest_earliest (vs : List String) :
    ∀ (cs : List String) (b : String),
      pickBest vs b cs = b ∨
        ∃ pre suf, cs = pre ++ pickBest vs b cs :: suf ∧
          vs.count b < vs.count (pickBest vs b cs) ∧
          ∀ v ∈ pre, vs.count v < vs.count (pickBest vs b cs) := by
  intro cs
  induction cs with
  | nil => intro b; exact Or.inl rfl
  | cons c rest ih =>
    intro b
    rw [pickBest]
    by_cases hlt : vs.count b < vs.count c
    · rw [if_pos hlt]
      rcases ih c with h | ⟨pre, suf, heq, hgt, hpre⟩
      · refine Or.inr ⟨[], rest, ?_, ?_, ?_⟩
        · rw [h]
          simp
        · rw [h]; exact hlt
        · intro v hv; exact absurd hv (List.not_mem_nil v)
      · refine Or.inr ⟨c :: pre, suf, ?_, ?_, ?_⟩
        · rw [List.cons_append, ← heq]
        · exact lt_trans hlt hgt
        · intro v hv
          rcases List.mem_cons.mp hv with hvc | hvp
          · exact hvc ▸ hgt
          · exact hpre v hvp
    · rw [if_neg hlt]
      rcases ih b with h | ⟨pre, suf, heq, hgt, hpre⟩
      · exact Or.inl h
      · refine Or.inr ⟨c :: pre, suf, ?_, ?_, ?_⟩
        · rw [List.cons_append, ← heq]
        · exact hgt
        · intro v hv
          rcases List.mem_cons.mp hv with hvc | hvp
          · subst hvc
            exact lt_of_le_of_lt (not_lt.mp hlt) hgt
          · exact hpre v hvp

theorem mostCommon_mem (vs : List String) (w : String) (h : mostCommon vs = some w) :
    w ∈ vs := by
  rw [mostCommon] at h
  cases hd : distinctVals vs with
  | nil => rw [hd] at h; exact absurd h (by simp)
  | cons c cs =>
    rw [hd] at h
    have hw : pickBest vs c cs = w := by
      injection h
    rcases pickBest_eq_or_mem vs cs c with he | he
    · have : w ∈ distinctVals vs := by
        rw [hd, ← hw, he]
        exact List.mem_cons_self c cs
      exact (distinctVals_mem vs w).mp this
    · have : w ∈ distinctVals vs := by
        rw [hd, ← hw]
        exact List.mem_cons_of_mem _ he
      exact (distinctVals_mem vs w).mp this

theorem mostCommon_count_ge (vs : List String) (w : String) (h : mostCommon vs = some w)
    (v : String) (hv : v ∈ vs) :
    vs.count v ≤ vs.count w := by
  rw [mostCommon] at h
  cases hd : distinctVals vs with
  | nil => rw [hd] at h; exact absurd h (by simp)
  | cons c cs =>
    rw [hd] at h
    have hw : pickBest vs c cs = w := by
      injection h
    have hvd : v ∈ distinctVals vs := (distinctVals_mem vs v).mpr hv
    rw [hd] at hvd
    rcases List.mem_cons.mp hvd with hvc | hvr
    · subst hvc
      rw [← hw]
      exact pickBest_count_ge_start vs cs v
    · rw [← hw]
      exact pickBest_count_ge vs cs c v hvr

theorem mostCommon_first_encountered (vs : List String) (w : String)
    (h : mostCommon vs = some w) :
    ∃ pre suf, distinctVals vs = pre ++ w :: suf ∧
      ∀ v ∈ pre, vs.count v < vs.count w := by
  rw [mostCommon] at h
  cases hd : distinctVals vs with
  | nil => rw [hd] at h; exact absurd h (by simp)
  | cons c cs =>
    rw [hd] at h
    have hw : pickBest vs c cs = w := by
      injection h
    rcases pickBest_earliest vs cs c with he | ⟨pre, suf, heq, hgt, hpre⟩
    · refine ⟨[], cs, ?_, ?_⟩
      · rw [← hw, he]
        simp
      · intro v hv; exact absurd hv (List.not_mem_nil v)
    · refine ⟨c :: pre, suf, ?_, ?_⟩
      · rw [← hw, List.cons_append, ← heq]
      · intro v hv
        rcases List.mem_cons.mp hv with hvc | hvp
        · subst hvc
          rw [← hw]
          exact hgt
        · rw [← hw]
          exact hpre v hvp

theorem mostCommon_isSome (vs : List String) (h : vs ≠ []) :
    ∃ w, mostCommon vs = some w := by
  rw [mostCommon]
  cases hd : distinctVals vs with
  | nil =>
    exfalso
    cases vs with
    | nil => exact h rfl
    | cons v rest =>
      have : v ∈ distinctVals (v :: rest) :=
        (distinctVals_mem _ v).mpr (List.mem_cons_self v rest)
      rw [hd] at this
      exact absurd this (List.not_mem_nil v)
  | cons c cs => exact ⟨pickBest vs c cs, rfl⟩

theorem mem_addIfAbsent (l : List Source) (s x : Source) :
    x ∈ addIfAbsent l s ↔ x ∈ l ∨ x = s := by
  rw [addIfAbsent]
  by_cases h : s ∈ l
  · rw [if_pos h]
    constructor
    · exact Or.inl
    · rintro (hx | hx)
      · exact hx
      · exact hx ▸ h
  · rw [if_neg h]
    simp

theorem addIfAbsent_ne_nil (l : List Source) (s : Source) : addIfAbsent l s ≠ [] := by
  rw [addIfAbsent]
  by_cases h : s ∈ l
  · rw [if_pos h]
    intro hc
    rw [hc] at h
    exact absurd h (List.not_mem_nil s)
  · rw [if_neg h]
    simp

theorem mem_foldl_addIfAbsent (l : List Source) :
    ∀ (acc : List Source) (x : Source),
    x ∈ l.foldl addIfAbsent acc ↔ x ∈ acc ∨ x ∈ l := by
  induction l with
  | nil => intro acc x; simp
  | cons s rest ih =>
    intro acc x
    rw [List.foldl_cons, ih, mem_addIfAbsent]
    constructor
    · rintro ((h | h) | h)
      · exact Or.inl h
      · exact Or.inr (by simp [h])
      · exact Or.inr (List.mem_cons_of_mem _ h)
    · rintro (h | h)
      · exact Or.inl (Or.inl h)
      · rcases List.mem_cons.mp h with h | h
        · exact Or.inl (Or.inr h)
        · exact Or.inr h

theorem mem_dedupSources (l : List Source) (x : Source) :
    x ∈ dedupSources l ↔ x ∈ l := by
  rw [dedupSources, mem_foldl_addIfAbsent]
  simp

theorem foldl_addIfAbsent_ne_nil (l : List Source) :
    ∀ (acc : List Source), acc ≠ [] → l.foldl addIfAbsent acc ≠ [] := by
  induction l with
  | nil => intro acc h; exact h
  | cons s rest ih =>
    intro acc h
    rw [List.foldl_cons]
    exact ih _ (addIfAbsent_ne_nil acc s)

theorem dedupSources_ne_nil (l : List Source) (h : l ≠ []) : dedupSources l ≠ [] := by
  cases l with
  | nil => exact absurd rfl h
  | cons s rest =>
    rw [dedupSources, List.foldl_cons]
    exact foldl_addIfAbsent_ne_nil rest _ (addIfAbsent_ne_nil [] s)

theorem finalizeVotes_of_ne_nil (l : List (String × Source)) (h : l ≠ []) :
    ∃ ws, finalizeVotes l = some ws := by
  have hmaps : l.map Prod.fst ≠ [] := by
    intro hc
    exact h (List.map_eq_nil_iff.mp hc)
  obtain ⟨w, hw⟩ := mostCommon_isSome _ hmaps
  exact ⟨_, by rw [finalizeVotes, hw]⟩

theorem finalizeVotes_sources_mem (l : List (String × Source)) (w : String)
    (srcs : List Source) (h : finalizeVotes l = some (w, srcs)) (s : Source) :
    s ∈ srcs ↔ (w, s) ∈ l := by
  rw [finalizeVotes] at h
  cases hmc : mostCommon (l.map Prod.fst) with
  | none => rw [hmc] at h; exact absurd h (by simp)
  | some w' =>
    rw [hmc] at h
    have hw : w' = w ∧ dedupSources ((l.filter (fun p => p.1 = w')).map Prod.snd) = srcs := by
      constructor <;> [skip; skip] <;> injection h with h1 <;>
        [exact congrArg Prod.fst h1; exact congrArg Prod.snd h1]
    obtain ⟨hw1, hw2⟩ := hw
    subst hw1
    rw [← hw2, mem_dedupSources]
    constructor
    · intro hmem
      obtain ⟨p, hp, hps⟩ := List.mem_map.mp hmem
      have hpf := List.mem_filter.mp hp
      have hp1 : p.1 = w' := by
        have := hpf.2
        simpa using this
      have : p = (w', s) := by
        obtain ⟨p1, p2⟩ := p
        simp only [Prod.mk.injEq]
        exact ⟨hp1, hps⟩
      exact this ▸ hpf.1
    · intro hmem
      exact List.mem_map.mpr ⟨(w', s), List.mem_filter.mpr ⟨hmem, by simp⟩, rfl⟩

theorem finalizeVotes_sources_ne_nil (l : List (String × Source)) (w : String)
    (srcs : List Source) (h : finalizeVotes l = some (w, srcs)) : srcs ≠ [] := by
  rw [finalizeVotes] at h
  cases hmc : mostCommon (l.map Prod.fst) with
  | none => rw [hmc] at h; exact absurd h (by simp)
  | some w' =>
    rw [hmc] at h
    have hw2 : dedupSources ((l.filter (fun p => p.1 = w')).map Prod.snd) = srcs := by
      injection h with h1
      exact congrArg Prod.snd h1
    have hwmem : w' ∈ l.map Prod.fst := mostCommon_mem _ _ hmc
    obtain ⟨p, hp, hps⟩ := List.mem_map.mp hwmem
    have hfilter : p ∈ l.filter (fun p => p.1 = w') :=
      List.mem_filter.mpr ⟨hp, by simp [hps]⟩
    have hne : (l.filter (fun p => p.1 = w')).map Prod.snd ≠ [] := by
      intro hc
      rw [List.map_eq_nil_iff] at hc
      rw [hc] at hfilter
      exact absurd hfilter (List.not_mem_nil p)
    rw [← hw2]
    exact dedupSources_ne_nil _ hne

/-! ### Helper lemmas: SUM totals -/

theorem foldl_sumTry_fst (l : List (String × Source)) :
    ∀ (ts : ℚ × List Source),
    (l.foldl (fun a c => sumTry a c.1 c.2) ts).1 = ts.1 + (l.map contribParse).sum := by
  induction l with
  | nil => intro ts; simp
  | cons c rest ih =>
    intro ts
    rw [List.foldl_cons, ih]
    cases hp : parseDecimalQ (stripSumChars c.1) with
    | none => simp [sumTry, contribParse, hp]
    | some q =>
      simp [sumTry, contribParse, hp]
      ring

theorem sumSpec_fst (l : List (String × Source)) :
    (sumSpec l).1 = (l.map contribParse).sum := by
  rw [sumSpec, foldl_sumTry_fst]
  simp

theorem foldl_sumTry_snd_nil (l : List (String × Source)) :
    ∀ (ts : ℚ × List Source),
    (l.foldl (fun a c => sumTry a c.1 c.2) ts).2 = [] →
      (l.foldl (fun a c => sumTry a c.1 c.2) ts).1 = ts.1 ∧ ts.2 = [] := by
  induction l with
  | nil => intro ts h; exact ⟨rfl, h⟩
  | cons c rest ih =>
    intro ts h
    rw [List.foldl_cons] at h ⊢
    obtain ⟨h1, h2⟩ := ih (sumTry ts c.1 c.2) h
    rw [sumTry] at h1 h2 ⊢
    cases hp : parseDecimalQ (stripSumChars c.1) with
    | none =>
      rw [hp] at h1 h2
      exact ⟨h1, h2⟩
    | some q =>
      rw [hp] at h2
      exact absurd h2 (addIfAbsent_ne_nil _ _)

theorem sumSpec_sources_nil (l : List (String × Source)) (h : (sumSpec l).2 = []) :
    (sumSpec l).1 = 0 := by
  rw [sumSpec] at h ⊢
  exact (foldl_sumTry_snd_nil l _ h).1

/-! ### Helper lemmas: field structures under `_set_field_value` -/

theorem sif_none_iff (fields : List FormField) (n : String) (v : Val) (src : String) :
    set_in_fields fields n v src = none ↔ find_in_fields fields n = none := by
  induction fields with
  | nil => simp [set_in_fields, find_in_fields]
  | cons f rest ih =>
    by_cases hf : f.field_name = n
    · simp [set_in_fields, find_in_fields, hf]
    · simp only [set_in_fields, find_in_fields, if_neg hf]
      rw [← ih]
      cases set_in_fields rest n v src <;> simp

theorem fif_of_sif_ne (fields fields2 : List FormField) (n m : String) (v : Val)
    (src : String) (hs : set_in_fields fields n v src = some fields2) (h : m ≠ n) :
    find_in_fields fields2 m = find_in_fields fields m := by
  induction fields generalizing fields2 with
  | nil => exact absurd hs (by simp [set_in_fields])
  | cons f rest ih =>
    by_cases hf : f.field_name = n
    · rw [set_in_fields, if_pos hf] at hs
      have h2 : fields2 = { f with value := some v, sources := some [src] } :: rest := by
        injection hs with h1
        exact h1.symm
      subst h2
      have hm : f.field_name ≠ m := fun he => h (he ▸ hf)
      simp [find_in_fields, hm]
    · rw [set_in_fields, if_neg hf] at hs
      cases hrest : set_in_fields rest n v src with
      | none => rw [hrest] at hs; exact absurd hs (by simp)
      | some rest2 =>
        rw [hrest] at hs
        have h2 : fields2 = f :: rest2 := by
          injection hs with h1
          exact h1.symm
        subst h2
        by_cases hfm : f.field_name = m
        · simp [find_in_fields, hfm]
        · simp only [find_in_fields, if_neg hfm]
          exact ih rest2 hrest

theorem fif_of_sif_self (fields fields2 : List FormField) (n : String) (v : Val)
    (src : String) (hs : set_in_fields fields n v src = some fields2) :
    ∃ f, find_in_fields fields n = some f ∧
      find_in_fields fields2 n = some { f with value := some v, sources := some [src] } := by
  induction fields generalizing fields2 with
  | nil => exact absurd hs (by simp [set_in_fields])
  | cons f rest ih =>
    by_cases hf : f.field_name = n
    · rw [set_in_fields, if_pos hf] at hs
      have h2 : fields2 = { f with value := some v, sources := some [src] } :: rest := by
        injection hs with h1
        exact h1.symm
      subst h2
      exact ⟨f, by simp [find_in_fields, hf]⟩
    · rw [set_in_fields, if_neg hf] at hs
      cases hrest : set_in_fields rest n v src with
      | none => rw [hrest] at hs; exact absurd hs (by simp)
      | some rest2 =>
        rw [hrest] at hs
        have h2 : fields2 = f :: rest2 := by
          injection hs with h1
          exact h1.symm
        subst h2
        obtain ⟨g, hg1, hg2⟩ := ih rest2 hrest
        exact ⟨g, by simp [find_in_fields, hf, hg1, hg2]⟩

theorem find_field_set_ne (s : FormStructure) (n m : String) (v : Val) (src : String)
    (h : m ≠ n) :
    find_field (set_field_value s n v src) m = find_field s m := by
  induction s with
  | nil => rfl
  | cons page rest ih =>
    obtain ⟨pk, fields⟩ := page
    rw [set_field_value]
    cases hsif : set_in_fields fields n v src with
    | some fields2 =>
      show find_field ((pk, fields2) :: rest) m = _
      rw [find_field, find_field, fif_of_sif_ne fields fields2 n m v src hsif h]
    | none =>
      show find_field ((pk, fields) :: set_field_value rest n v src) m = _
      rw [find_field, find_field]
      cases find_in_fields fields m with
      | some f => rfl
      | none => exact ih

theorem find_field_set_self (s : FormStructure) (n : String) (v : Val) (src : String)
    (h : has_field s n = true) :
    ∃ f, find_field s n = some f ∧
      find_field (set_field_value s n v src) n =
        some { f with value := some v, sources := some [src] } := by
  induction s with
  | nil => exact absurd h (by simp [has_field, find_field])
  | cons page rest ih =>
    obtain ⟨pk, fields⟩ := page
    rw [set_field_value]
    cases hsif : set_in_fields fields n v src with
    | some fields2 =>
      obtain ⟨f, hf1, hf2⟩ := fif_of_sif_self fields fields2 n v src hsif
      refine ⟨f, ?_, ?_⟩
      · rw [find_field, hf1]
      · show find_field ((pk, fields2) :: rest) n = _
        rw [find_field, hf2]
    | none =>
      have hfif : find_in_fields fields n = none := (sif_none_iff fields n v src).mp hsif
      have hrest : has_field rest n = true := by
        rw [has_field] at h ⊢
        rw [find_field, hfif] at h
        exact h
      obtain ⟨f, hf1, hf2⟩ := ih hrest
      refine ⟨f, ?_, ?_⟩
      · rw [find_field, hfif, hf1]
      · show find_field ((pk, fields) :: set_field_value rest n v src) n = _
        rw [find_field, hfif, hf2]

theorem get_set_ne (s : FormStructure) (n m : String) (v : Val) (src : String) (h : m ≠ n) :
    get_field_value (set_field_value s n v src) m = get_field_value s m := by
  rw [get_field_value, get_field_value, find_field_set_ne s n m v src h]

theorem get_set_self (s : FormStructure) (n : String) (v : Val) (src : String)
    (h : has_field s n = true) :
    get_field_value (set_field_value s n v src) n = some v := by
  obtain ⟨f, _, hf2⟩ := find_field_set_self s n v src h
  rw [get_field_value, hf2]
  rfl

theorem find_field_set_none (s : FormStructure) (n : String) (v : Val) (src : String)
    (hn : find_field s n = none) :
    find_field (set_field_value s n v src) n = none := by
  induction s with
  | nil => rfl
  | cons page rest ih =>
    obtain ⟨pk, fields⟩ := page
    rw [find_field] at hn
    cases hfif : find_in_fields fields n with
    | some f => rw [hfif] at hn; exact absurd hn (by simp)
    | none =>
      rw [hfif] at hn
      rw [set_field_value, (sif_none_iff fields n v src).mpr hfif]
      show find_field ((pk, fields) :: set_field_value rest n v src) n = none
      rw [find_field, hfif]
      exact ih hn

theorem has_field_set (s : FormStructure) (n m : String) (v : Val) (src : String) :
    has_field (set_field_value s n v src) m = has_field s m := by
  by_cases h : m = n
  · subst h
    by_cases hh : has_field s m = true
    · obtain ⟨f, _, hf2⟩ := find_field_set_self s m v src hh
      rw [has_field, hf2, hh]
      rfl
    · have hn : find_field s m = none := by
        rw [has_field] at hh
        cases hfind : find_field s m with
        | none => rfl
        | some f =>
          have : has_field s m = true := by
            unfold has_field
            rw [hfind]
            rfl
          exact absurd this hh
      rw [has_field, find_field_set_none s m v src hn, has_field, hn]
  · rw [has_field, has_field, find_field_set_ne s n m v src h]

theorem gnv_set_ne (s : FormStructure) (n m : String) (v : Val) (src : String) (h : m ≠ n) :
    get_numeric_value (set_field_value s n v src) m = get_numeric_value s m := by
  rw [get_numeric_value, get_numeric_value, get_set_ne s n m v src h]

/-! ### Claims about the processing order (C4) -/

theorem precedencePairs_fst_mem :
    ∀ p ∈ precedencePairs, p.1 ∈ PROCESSING_ORDER := by decide

/-- C4 (amended): for every set of determined target forms, the driver's
order never places a form before one it must follow: Schedule C and
Schedule E come before Schedule SE (`1040-SE`), Schedule SE before
Schedule 1, Schedule 1 before Schedules 2 and 3, Schedule 2 before
Form 2441, Form 2441 before Schedule 3, Schedules 2 and 3 before Form 8812
and Schedule A, and all of those before Form 1040 — stated as: the ordered
target list is pairwise free of inverted precedence pairs. -/
theorem ordered_target_forms_respects_precedence (targets : List String) :
    (ordered_target_forms targets).Pairwise (fun a b => (b, a) ∉ precedencePairs) := by
  show (((PROCESSING_ORDER.filter (fun f => f ∈ targets)) ++
    targets.filter (fun f => f ∉ PROCESSING_ORDER.filter (fun f => f ∈ targets)))).Pairwise _
  refine List.pairwise_append.mpr ⟨?_, ?_, ?_⟩
  · exact List.Pairwise.sublist (List.filter_sublist _) (by decide)
  · apply List.pairwise_of_forall_mem_list
    intro a ha b hb
    intro hba
    have hbmem := List.mem_filter.mp hb
    have hbord : b ∈ PROCESSING_ORDER := precedencePairs_fst_mem (b, a) hba
    have hb2 : b ∉ PROCESSING_ORDER ∨ b ∉ targets := by simpa using hbmem.2
    rcases hb2 with hcase | hcase
    · exact hcase hbord
    · exact hcase (by simpa using hbmem.1)
  · intro a ha b hb
    intro hba
    have hbmem := List.mem_filter.mp hb
    have hbord : b ∈ PROCESSING_ORDER := precedencePairs_fst_mem (b, a) hba
    have hb2 : b ∉ PROCESSING_ORDER ∨ b ∉ targets := by simpa using hbmem.2
    rcases hb2 with hcase | hcase
    · exact hcase hbord
    · exact hcase (by simpa using hbmem.1)

/-- C4 (counterexample): with all forms targeted, the driver processes
Form 2441 before Schedule 3, so the claim that Schedules 2 and 3 both
precede Form 2441 fails. -/
theorem ordered_target_forms_schedule3_after_2441 :
    "Schedule 3" ∈ ordered_target_forms PROCESSING_ORDER ∧
    "Form 2441" ∈ ordered_target_forms PROCESSING_ORDER ∧
    ¬ (ordered_target_forms PROCESSING_ORDER).indexOf "Schedule 3" <
        (ordered_target_forms PROCESSING_ORDER).indexOf "Form 2441" := by decide

/-! ### Claims about SUM aggregation (C1, C3) -/

/-- C1 (amended): for every SUM-policy key, the Aggregator's result equals
the sum of the parsed contributions exactly (hence within 0.01), where
parsing strips currency symbols, thousands separators AND parentheses —
without negating parenthesized values — and contributions that fail this
parse are excluded without affecting the rest of the sum. -/
theorem sum_merge_totals (input : DataByType) (rel sm mo li pr : List String) (key : String)
    (hsm : key ∈ sm) (t : ℚ) (srcs : List Source)
    (h : aggregateLookup input rel sm mo li pr key = some (AggValue.sumv t srcs)) :
    t = ((contributionStream input rel key).map contribParse).sum ∧
    |t - ((contributionStream input rel key).map contribParse).sum| ≤ 1/100 := by
  rw [aggregateLookup_eq_spec] at h
  simp only [aggregateSpec, if_pos hsm] at h
  by_cases hl : contributionStream input rel key = []
  · rw [if_pos hl] at h
    exact absurd h (by simp)
  · rw [if_neg hl] at h
    have ht : (sumSpec (contributionStream input rel key)).1 = t := by
      have := h
      simp only [Option.some.injEq, AggValue.sumv.injEq] at this
      exact this.1
    have hval : t = ((contributionStream input rel key).map contribParse).sum := by
      rw [← ht, sumSpec_fst]
    refine ⟨hval, ?_⟩
    rw [hval]
    simp

theorem sum_merge_totals_parse_facts :
    parseDecimalQ (stripSumChars "$1,234.50") = some (ratOfScan (false, 1234, 50, 2, false, 0)) ∧
    parseDecimalQ (stripSumChars "(500)") = some (ratOfScan (false, 500, 0, 0, false, 0)) ∧
    parseDecimalQ (stripSumChars "abc") = none :=
  ⟨rfl, rfl, rfl⟩

theorem sum_merge_totals_witness :
    aggregateLookup exC1input ["W-2"] ["WagesTipsOtherComp"] [] [] proprietor_keys
        "WagesTipsOtherComp" =
      some (AggValue.sumv
        (sumSpec [("$1,234.50", "w2-a"), ("(500)", "w2-b"), ("abc", "w2-c")]).1
        (sumSpec [("$1,234.50", "w2-a"), ("(500)", "w2-b"), ("abc", "w2-c")]).2) ∧
    (sumSpec [("$1,234.50", "w2-a"), ("(500)", "w2-b"), ("abc", "w2-c")]).1 =
      ((contributionStream exC1input ["W-2"] "WagesTipsOtherComp").map contribParse).sum ∧
    (sumSpec [("$1,234.50", "w2-a"), ("(500)", "w2-b"), ("abc", "w2-c")]).1 = 1734.5 := by
  have hstream : contributionStream exC1input ["W-2"] "WagesTipsOtherComp" =
      [("$1,234.50", "w2-a"), ("(500)", "w2-b"), ("abc", "w2-c")] := by decide
  have hagg2 : aggregateLookup exC1input ["W-2"] ["WagesTipsOtherComp"] [] [] proprietor_keys
      "WagesTipsOtherComp" =
      some (AggValue.sumv
        (sumSpec (contributionStream exC1input ["W-2"] "WagesTipsOtherComp")).1
        (sumSpec (contributionStream exC1input ["W-2"] "WagesTipsOtherComp")).2) := by
    rw [aggregateLookup_eq_spec]
    simp only [aggregateSpec]
    rw [if_pos (by decide : ("WagesTipsOtherComp" : String) ∈ ["WagesTipsOtherComp"]),
      if_neg (by simp [hstream] :
        ¬ contributionStream exC1input ["W-2"] "WagesTipsOtherComp" = [])]
  rw [hstream] at hagg2
  refine ⟨hagg2, ?_, ?_⟩
  · have h := (sum_merge_totals exC1input ["W-2"] ["WagesTipsOtherComp"] [] [] proprietor_keys
      "WagesTipsOtherComp" (by decide) _ _ hagg2).1
    exact h
  · simp only [sumSpec, List.foldl_cons, List.foldl_nil, sumTry,
      sum_merge_totals_parse_facts.1, sum_merge_totals_parse_facts.2.1,
      sum_merge_totals_parse_facts.2.2]
    norm_num [ratOfScan]

/-- C1 (counterexample): the aggregator sums `(500)` as +500 (its SUM
branch strips parentheses without negating), while the claimed parsing —
the `_get_numeric_value` convention, also shown here — reads `(500)` as
-500; the two differ by 1000, far beyond the claimed 0.01 tolerance. -/
theorem sum_merge_paren_counterexample :
    aggregateLookup exC1paren ["W-2"] ["WagesTipsOtherComp"] [] [] proprietor_keys
        "WagesTipsOtherComp" =
      some (AggValue.sumv (sumSpec [("(500)", "w2-a")]).1 (sumSpec [("(500)", "w2-a")]).2) ∧
    (sumSpec [("(500)", "w2-a")]).1 = 500 ∧
    (sumSpec [("(500)", "w2-a")]).2 = ["w2-a"] ∧
    parse_numeric_string "(500)" = some (-500) ∧
    ¬ |(500 : ℚ) - (-500 : ℚ)| ≤ 1/100 := by
  have hstream : contributionStream exC1paren ["W-2"] "WagesTipsOtherComp" =
      [("(500)", "w2-a")] := by decide
  have hagg2 : aggregateLookup exC1paren ["W-2"] ["WagesTipsOtherComp"] [] [] proprietor_keys
      "WagesTipsOtherComp" =
      some (AggValue.sumv
        (sumSpec (contributionStream exC1paren ["W-2"] "WagesTipsOtherComp")).1
        (sumSpec (contributionStream exC1paren ["W-2"] "WagesTipsOtherComp")).2) := by
    rw [aggregateLookup_eq_spec]
    simp only [aggregateSpec]
    rw [if_pos (by decide : ("WagesTipsOtherComp" : String) ∈ ["WagesTipsOtherComp"]),
      if_neg (by simp [hstream] :
        ¬ contributionStream exC1paren ["W-2"] "WagesTipsOtherComp" = [])]
  rw [hstream] at hagg2
  refine ⟨hagg2, ?_, by decide, ?_, by norm_num⟩
  · simp only [sumSpec, List.foldl_cons, List.foldl_nil, sumTry,
      sum_merge_totals_parse_facts.2.1]
    norm_num [ratOfScan]
  · have h1 : parse_numeric_string "(500)" =
        some (ratOfScan (true, 500, 0, 0, false, 0)) := rfl
    rw [h1]
    norm_num [ratOfScan]

/-- C3 (amended): every present MODE/proprietor key has non-empty sources,
every present LIST key has a non-empty item list, and a present SUM key
has a non-empty contribution stream — but a SUM key whose contributions
all fail numeric parsing is still present, and then its sources list is
empty and its total is 0 (the SUM branch does `setdefault` before
parsing). -/
theorem present_keys_sources (input : DataByType) (rel sm mo li pr : List String)
    (key : String) (v : AggValue)
    (h : aggregateLookup input rel sm mo li pr key = some v) :
    (∀ w srcs, v = AggValue.scalar w srcs → srcs ≠ []) ∧
    (∀ items, v = AggValue.listv items → items ≠ []) ∧
    (∀ t srcs, v = AggValue.sumv t srcs →
      contributionStream input rel key ≠ [] ∧ (srcs = [] → t = 0)) := by
  rw [aggregateLookup_eq_spec] at h
  simp only [aggregateSpec] at h
  by_cases hsm : key ∈ sm
  · rw [if_pos hsm] at h
    by_cases hl : contributionStream input rel key = []
    · rw [if_pos hl] at h; exact absurd h (by simp)
    · rw [if_neg hl] at h
      have hv : v = AggValue.sumv (sumSpec (contributionStream input rel key)).1
          (sumSpec (contributionStream input rel key)).2 := by
        injection h with h1; exact h1.symm
      subst hv
      refine ⟨fun w srcs hc => absurd hc (by simp),
              fun items hc => absurd hc (by simp), ?_⟩
      intro t srcs hc
      injection hc with h1 h2
      refine ⟨hl, ?_⟩
      intro hsn
      rw [← h2] at hsn
      rw [← h1]
      exact sumSpec_sources_nil _ hsn
  · rw [if_neg hsm] at h
    by_cases hmo : key ∈ mo
    · rw [if_pos hmo] at h
      cases hfv : finalizeVotes (contributionStream input rel key) with
      | none => rw [hfv] at h; exact absurd h (by simp)
      | some ws =>
        rw [hfv] at h
        have h' : some (AggValue.scalar ws.1 ws.2) = some v := h
        have hv : v = AggValue.scalar ws.1 ws.2 := by
          injection h' with h1; exact h1.symm
        subst hv
        refine ⟨?_, fun items hc => absurd hc (by simp),
                fun t srcs hc => absurd hc (by simp)⟩
        intro w srcs hc
        injection hc with h1 h2
        rw [← h2]
        exact finalizeVotes_sources_ne_nil _ ws.1 ws.2 hfv
    · rw [if_neg hmo] at h
      by_cases hli : key ∈ li
      · rw [if_pos hli] at h
        by_cases hl : contributionStream input rel key = []
        · rw [if_pos hl] at h; exact absurd h (by simp)
        · rw [if_neg hl] at h
          have hv : v = AggValue.listv (contributionStream input rel key) := by
            injection h with h1; exact h1.symm
          subst hv
          refine ⟨fun w srcs hc => absurd hc (by simp), ?_,
                  fun t srcs hc => absurd hc (by simp)⟩
          intro items hc
          injection hc with h1
          rw [← h1]
          exact hl
      · rw [if_neg hli] at h
        by_cases hpr : key ∈ pr
        · rw [if_pos hpr] at h
          cases hfv : finalizeVotes (propStream input rel pr key) with
          | none => rw [hfv] at h; exact absurd h (by simp)
          | some ws =>
            rw [hfv] at h
            have h' : some (AggValue.scalar ws.1 ws.2) = some v := h
            have hv : v = AggValue.scalar ws.1 ws.2 := by
              injection h' with h1; exact h1.symm
            subst hv
            refine ⟨?_, fun items hc => absurd hc (by simp),
                    fun t srcs hc => absurd hc (by simp)⟩
            intro w srcs hc
            injection hc with h1 h2
            rw [← h2]
            exact finalizeVotes_sources_ne_nil _ ws.1 ws.2 hfv
        · rw [if_neg hpr] at h
          exact absurd h (by simp)

/-- C3 (witness): a MODE key with one contribution is present with the
single reporting document as its non-empty sources list. -/
theorem present_keys_sources_witness :
    aggregateLookup exC3modal ["W-2"] [] ["EmployeeAddress"] [] proprietor_keys
        "EmployeeAddress" = some (AggValue.scalar "12 Main St" ["w2-a"]) ∧
    (["w2-a"] : List Source) ≠ [] := by
  have hagg : aggregateLookup exC3modal ["W-2"] [] ["EmployeeAddress"] [] proprietor_keys
      "EmployeeAddress" = some (AggValue.scalar "12 Main St" ["w2-a"]) := by decide
  exact ⟨hagg, (present_keys_sources exC3modal ["W-2"] [] ["EmployeeAddress"] []
    proprietor_keys "EmployeeAddress" _ hagg).1 "12 Main St" ["w2-a"] rfl⟩

/-- C3 (counterexample): a SUM key whose only contribution is the
unparsable string `abc` is present in the result with total 0 and an
empty sources list, refuting both the never-empty-sources invariant and
the claimed absence of such keys. -/
theorem sum_key_empty_sources_counterexample :
    aggregateLookup exC3input ["W-2"] ["WagesTipsOtherComp"] [] [] proprietor_keys
        "WagesTipsOtherComp" = some (AggValue.sumv 0 []) ∧
    AggValue.sourcesList (AggValue.sumv 0 []) = ([] : List Source) := by
  exact ⟨by decide, rfl⟩

theorem finalizeVotes_mostCommon (l : List (String × Source)) (w : String)
    (srcs : List Source) (h : finalizeVotes l = some (w, srcs)) :
    mostCommon (l.map Prod.fst) = some w := by
  rw [finalizeVotes] at h
  cases hmc : mostCommon (l.map Prod.fst) with
  | none => rw [hmc] at h; exact absurd h (by simp)
  | some w' =>
    rw [hmc] at h
    have hw : w' = w := by
      have h' : some (w', dedupSources ((l.filter (fun p => p.1 = w')).map Prod.snd)) =
          some (w, srcs) := h
      injection h' with h1
      exact congrArg Prod.fst h1
    exact congrArg some hw

/-- C6: a MODE key with a non-empty contribution stream aggregates to a
scalar whose value occurs in the stream, has maximal frequency, is the
first-encountered value among those of maximal frequency (every distinct
value listed before it has strictly smaller count), and whose sources are
exactly the documents that reported the winning value. -/
theorem mode_most_frequent (input : DataByType) (rel sm mo li pr : List String)
    (key : String) (hmo : key ∈ mo) (hsm : key ∉ sm)
    (hne : contributionStream input rel key ≠ []) :
    ∃ w srcs, aggregateLookup input rel sm mo li pr key =
        some (AggValue.scalar w srcs) ∧
      w ∈ (contributionStream input rel key).map Prod.fst ∧
      (∀ v ∈ (contributionStream input rel key).map Prod.fst,
        ((contributionStream input rel key).map Prod.fst).count v ≤
          ((contributionStream input rel key).map Prod.fst).count w) ∧
      (∃ pre suf, distinctVals ((contributionStream input rel key).map Prod.fst) =
          pre ++ w :: suf ∧
        ∀ v ∈ pre, ((contributionStream input rel key).map Prod.fst).count v <
          ((contributionStream input rel key).map Prod.fst).count w) ∧
      (∀ s, s ∈ srcs ↔ (w, s) ∈ contributionStream input rel key) := by
  obtain ⟨ws, hfv⟩ := finalizeVotes_of_ne_nil _ hne
  have hmc : mostCommon ((contributionStream input rel key).map Prod.fst) = some ws.1 :=
    finalizeVotes_mostCommon _ ws.1 ws.2 hfv
  refine ⟨ws.1, ws.2, ?_, mostCommon_mem _ _ hmc,
    fun v hv => mostCommon_count_ge _ _ hmc v hv,
    mostCommon_first_encountered _ _ hmc,
    fun s => finalizeVotes_sources_mem _ ws.1 ws.2 hfv s⟩
  rw [aggregateLookup_eq_spec]
  simp only [aggregateSpec]
  rw [if_neg hsm, if_pos hmo, hfv]

/-- C6 (witness): values `A`, `B`, `A` from three documents in that order
aggregate to `A` with sources the two documents that reported `A`; the
winner's count dominates `B`'s and `w2-a` is among the winning sources. -/
theorem mode_most_frequent_witness :
    aggregateLookup exC6input ["W-2"] [] ["FilingStatus"] [] proprietor_keys
        "FilingStatus" = some (AggValue.scalar "A" ["w2-a", "w2-c"]) ∧
    ("A", "w2-a") ∈ contributionStream exC6input ["W-2"] "FilingStatus" ∧
    ((contributionStream exC6input ["W-2"] "FilingStatus").map Prod.fst).count "B" ≤
      ((contributionStream exC6input ["W-2"] "FilingStatus").map Prod.fst).count "A" := by
  have hagg : aggregateLookup exC6input ["W-2"] [] ["FilingStatus"] [] proprietor_keys
      "FilingStatus" = some (AggValue.scalar "A" ["w2-a", "w2-c"]) := by decide
  obtain ⟨w, srcs, heq, hmem, hcnt, hfirst, hsrc⟩ :=
    mode_most_frequent exC6input ["W-2"] [] ["FilingStatus"] [] proprietor_keys
      "FilingStatus" (by decide) (by decide) (by decide)
  have h2 := heq.symm.trans hagg
  injection h2 with h3
  injection h3 with hw hs
  subst hw; subst hs
  exact ⟨hagg, (hsrc "w2-a").mp (by decide), hcnt "B" (by decide)⟩

/-- C7 (amended): a `null` raw value is dropped entirely before merging; a
value whose trimmed form is empty is NOT dropped — it never changes a SUM
accumulator or total (its numeric parse fails), but it is appended to a
MODE key's vote list like any other cleaned value, so it counts toward
MODE frequencies and can win. -/
theorem null_empty_cleaning (sm mo li pr : List String) (ipd : Bool) (st : AggStores)
    (k : String) (src : Source) (strv : String) (h : pyStrip strv = "") :
    processEntry sm mo li pr ipd st (k, ⟨none, src⟩) = st ∧
    (∀ ts, sumTry ts (pyStrip strv) src = ts) ∧
    (∀ l₁ l₂ : List (String × Source),
      sumSpec (l₁ ++ (pyStrip strv, src) :: l₂) = sumSpec (l₁ ++ l₂)) ∧
    (k ∉ sm → k ∈ mo →
      processEntry sm mo li pr ipd st (k, ⟨some strv, src⟩) =
        { st with votesModal := appendVote st.votesModal k (pyStrip strv, src) }) := by
  have hsumTry : ∀ ts, sumTry ts (pyStrip strv) src = ts := by
    intro ts
    rw [h]
    rfl
  refine ⟨processEntry_eq_none sm mo li pr ipd st _ rfl, hsumTry, ?_, ?_⟩
  · intro l₁ l₂
    rw [sumSpec, sumSpec, List.foldl_append, List.foldl_append, List.foldl_cons]
    congr 1
    exact hsumTry _
  · intro hnsm hmo
    exact processEntry_eq_modal sm mo li pr ipd st (k, ⟨some strv, src⟩)
      (pyStrip strv) rfl hnsm hmo

/-- C7 (witness): with the all-whitespace raw value `"   "` — which trims
to the empty string — a `null` entry leaves the stores untouched, the
trimmed-empty value leaves a SUM accumulator and a SUM total unchanged,
and the same value is appended to a MODE key's vote list. -/
theorem null_empty_cleaning_witness :
    processEntry ["K"] ["M"] [] [] true
        ⟨[("K", ((7 : ℚ), ["w2-a"]))], [], [], []⟩ ("M", ⟨none, "w2-b"⟩) =
      ⟨[("K", ((7 : ℚ), ["w2-a"]))], [], [], []⟩ ∧
    sumTry ((7 : ℚ), ["w2-a"]) (pyStrip "   ") "w2-b" = ((7 : ℚ), ["w2-a"]) ∧
    sumSpec [("5", "w2-a"), (pyStrip "   ", "w2-b")] = sumSpec [("5", "w2-a")] ∧
    processEntry ["K"] ["M"] [] [] true
        ⟨[("K", ((7 : ℚ), ["w2-a"]))], [], [], []⟩ ("M", ⟨some "   ", "w2-b"⟩) =
      ⟨[("K", ((7 : ℚ), ["w2-a"]))],
        appendVote [] "M" (pyStrip "   ", "w2-b"), [], []⟩ := by
  obtain ⟨h1, h2, h3, h4⟩ := null_empty_cleaning ["K"] ["M"] [] [] true
    ⟨[("K", ((7 : ℚ), ["w2-a"]))], [], [], []⟩ "M" "w2-b" "   " (by decide)
  exact ⟨h1, h2 _, h3 [("5", "w2-a")] [], h4 (by decide) (by decide)⟩

/-- C7 (counterexample): a MODE key whose only contribution is the
all-whitespace value `"   "` aggregates to the empty string as winner,
refuting the claim that trimmed-empty values are dropped before merging
and can never win a MODE vote. -/
theorem empty_string_mode_winner_counterexample :
    aggregateLookup exC7input ["W-2"] [] ["EmployeeAddress"] [] proprietor_keys
        "EmployeeAddress" = some (AggValue.scalar "" ["w2-a"]) := by
  decide

/-! ### Claims about the Form 1040 calculation (C5, C8, C10) -/

theorem stdDeduction_pos (fs : Option Val) : 0 < stdDeductionFor fs := by
  rw [stdDeductionFor]
  split_ifs <;> norm_num

theorem ite_decide_lt_eq_max (a b : ℚ) :
    (if decide (a < b) = true then b else a) = max a b := by
  by_cases hab : a < b
  · rw [if_pos (by simpa using hab)]
    exact (max_eq_right hab.le).symm
  · rw [if_neg (by simpa using hab)]
    exact (max_eq_left (le_of_not_lt hab)).symm

set_option maxHeartbeats 2000000 in
/-- C5 (amended): on every run of the 1040 block that completes, Line 12
is the maximum of the filing-status standard deduction and the Schedule A
itemized total (the latter is 0 when Schedule A is absent or cached as an
empty structure) and `Line12_UsedItemized` records whether the itemized
total strictly exceeded the standard deduction; with no Schedule A cache
entry Line 12 is the standard deduction.  But the claimed "no exception
is raised" fails: whenever the Line 16 bracket computation hits the top
Single or catch-all arm (`tax16Raises`), the step raises `TypeError`. -/
theorem line12_deduction (s : FormStructure) (c : Cache)
    (h12 : has_field s "Line12_DeductionAmount" = true)
    (hU : has_field s "Line12_UsedItemized" = true) :
    (∀ out, calc1040Run s c = some out →
      get_field_value out "Line12_DeductionAmount" =
        some (Val.num (max (stdDeductionFor (get_field_value s "FilingStatus"))
          (calc1040Full s c).itemized)) ∧
      get_field_value out "Line12_UsedItemized" =
        some (Val.b (decide (stdDeductionFor (get_field_value s "FilingStatus") <
          (calc1040Full s c).itemized)))) ∧
    (alookup c "Schedule A" = none →
      (calc1040Full s c).itemized = 0 ∧
      (calc1040Full s c).line12 = stdDeductionFor (get_field_value s "FilingStatus")) ∧
    (tax16Raises (get_field_value s "FilingStatus") (calc1040Full s c).line15 = true →
      calc1040Run s c = none) := by
  refine ⟨?_, ?_, ?_⟩
  · intro out hout
    rw [calc1040Run] at hout
    by_cases hr : tax16Raises (get_field_value s "FilingStatus")
        (calc1040Full s c).line15 = true
    · rw [if_pos hr] at hout
      exact absurd hout (by simp)
    · rw [if_neg hr] at hout
      injection hout with hout2
      subst hout2
      constructor
      · simp only [calc1040Full]
        rw [get_set_ne _ "Line37_AmountYouOwe" "Line12_DeductionAmount" _ _ (by decide),
          get_set_ne _ "Line34_AmountOverpaid" "Line12_DeductionAmount" _ _ (by decide),
          get_set_ne _ "Line24_TotalTax" "Line12_DeductionAmount" _ _ (by decide),
          get_set_ne _ "Line22_TaxAfterNonrefundableCredits" "Line12_DeductionAmount" _ _
            (by decide),
          get_set_ne _ "Line18_TotalTaxBeforeCredits" "Line12_DeductionAmount" _ _
            (by decide),
          get_set_ne _ "Line16_Tax" "Line12_DeductionAmount" _ _ (by decide),
          get_set_ne _ "Line15_TaxableIncome" "Line12_DeductionAmount" _ _ (by decide),
          get_set_ne _ "Line14_TotalDeductions" "Line12_DeductionAmount" _ _ (by decide),
          get_set_ne _ "Line12_UsedItemized" "Line12_DeductionAmount" _ _ (by decide),
          get_set_self _ "Line12_DeductionAmount" _ _ h12]
        rw [ite_decide_lt_eq_max]
      · simp only [calc1040Full]
        rw [get_set_ne _ "Line37_AmountYouOwe" "Line12_UsedItemized" _ _ (by decide),
          get_set_ne _ "Line34_AmountOverpaid" "Line12_UsedItemized" _ _ (by decide),
          get_set_ne _ "Line24_TotalTax" "Line12_UsedItemized" _ _ (by decide),
          get_set_ne _ "Line22_TaxAfterNonrefundableCredits" "Line12_UsedItemized" _ _
            (by decide),
          get_set_ne _ "Line18_TotalTaxBeforeCredits" "Line12_UsedItemized" _ _ (by decide),
          get_set_ne _ "Line16_Tax" "Line12_UsedItemized" _ _ (by decide),
          get_set_ne _ "Line15_TaxableIncome" "Line12_UsedItemized" _ _ (by decide),
          get_set_ne _ "Line14_TotalDeductions" "Line12_UsedItemized" _ _ (by decide),
          get_set_self _ "Line12_UsedItemized" _ _ (by rw [has_field_set]; exact hU)]
  · intro hnone
    have hitem : (calc1040Full s c).itemized = 0 := by
      simp [calc1040Full, hnone]
    refine ⟨hitem, ?_⟩
    have h12v : (calc1040Full s c).line12 =
        (if decide (stdDeductionFor (get_field_value s "FilingStatus") <
            (calc1040Full s c).itemized) = true then (calc1040Full s c).itemized
         else stdDeductionFor (get_field_value s "FilingStatus")) := rfl
    rw [h12v, hitem]
    have hnotlt : ¬ decide (stdDeductionFor (get_field_value s "FilingStatus") < (0 : ℚ)) =
        true := by
      simp only [decide_eq_true_eq, not_lt]
      exact (stdDeduction_pos (get_field_value s "FilingStatus")).le
    rw [if_neg hnotlt]
  · intro hr
    rw [calc1040Run, if_pos hr]

set_option maxHeartbeats 2000000 in
/-- C5 (witness): a Single filer with AGI 50000 and a cached Schedule A
itemized total of 8000: taxable income 36150 stays below the crash band,
the step completes, Line 12 = 13850 (the standard deduction) and
`Line12_UsedItemized = false`. -/
theorem line12_deduction_witness :
    calc1040Run ex1040 exCacheSchedA = some (calc1040 ex1040 exCacheSchedA) ∧
    get_field_value (calc1040 ex1040 exCacheSchedA) "Line12_DeductionAmount" =
      some (Val.num 13850) ∧
    get_field_value (calc1040 ex1040 exCacheSchedA) "Line12_UsedItemized" =
      some (Val.b false) := by
  have h15 : (calc1040Full ex1040 exCacheSchedA).line15 = 36150 := by
    simp [calc1040Full, ex1040, exCacheSchedA, exSchedA8000, get_numeric_value,
      get_field_value, find_field, find_in_fields, set_field_value, set_in_fields,
      blankField, numField, strField, alookup, stdDeductionFor, has_field]
    norm_num
  have hfs : get_field_value ex1040 "FilingStatus" = some (Val.s "Single") := rfl
  have hrun : calc1040Run ex1040 exCacheSchedA = some (calc1040 ex1040 exCacheSchedA) := by
    rw [calc1040Run, h15, hfs]
    norm_num [tax16Raises, calc1040]
  obtain ⟨h1, h2, h3⟩ := line12_deduction ex1040 exCacheSchedA (by decide) (by decide)
  obtain ⟨ha, hb⟩ := h1 (calc1040 ex1040 exCacheSchedA) hrun
  have hitem : (calc1040Full ex1040 exCacheSchedA).itemized = 8000 := rfl
  have hstd : stdDeductionFor (get_field_value ex1040 "FilingStatus") = 13850 := by decide
  refine ⟨hrun, ?_, ?_⟩
  · rw [ha, hitem, hstd, max_eq_left (by norm_num : (8000 : ℚ) ≤ 13850)]
  · rw [hb, hitem, hstd]
    decide

set_option maxHeartbeats 2000000 in
/-- C5 (counterexample): with Schedule A absent from the cache, a Single
filer with AGI 150000 has taxable income 136150, above the 95375 top of
the third bracket; the top Single arm adds the float 16271.75 to a
`Decimal` and raises `TypeError`, so the step fails — refuting the
claimed "no exception is raised". -/
theorem line12_no_exception_counterexample :
    alookup ([] : Cache) "Schedule A" = none ∧
    (calc1040Full ex1040crash []).line15 = 136150 ∧
    tax16Raises (get_field_value ex1040crash "FilingStatus") 136150 = true ∧
    calc1040Run ex1040crash [] = none := by
  have h15 : (calc1040Full ex1040crash []).line15 = 136150 := by
    simp [calc1040Full, ex1040crash, get_numeric_value, get_field_value, find_field,
      find_in_fields, set_field_value, set_in_fields, blankField, numField, strField,
      alookup, stdDeductionFor, has_field]
    norm_num
  have hr : tax16Raises (get_field_value ex1040crash "FilingStatus") 136150 = true := by
    decide
  refine ⟨rfl, h15, hr, ?_⟩
  rw [calc1040Run, h15, hr]
  simp

set_option maxHeartbeats 2000000 in
/-- C10 (amended): with a missing or unrecognized FilingStatus the 1040
block falls back to the Single standard deduction 13850 for Line 12 and
the Single bracket table for Line 16, and the step completes whenever
taxable income is at most 95375; but for taxable income above 95375 the
catch-all arm adds the float 16271.75 to a `Decimal` and the step fails
with `TypeError` — it is not true that the step never fails. -/
theorem filing_status_fallback (s : FormStructure) (c : Cache)
    (h : get_field_value s "FilingStatus" ∉
      [some (Val.s "Single"), some (Val.s "MarriedFilingJointly"),
       some (Val.s "MarriedFilingSeparately"), some (Val.s "HeadOfHousehold"),
       some (Val.s "QualifyingWidow(er)")]) :
    stdDeductionFor (get_field_value s "FilingStatus") = 13850 ∧
    (calc1040Full s c).line12 = max 13850 (calc1040Full s c).itemized ∧
    ((calc1040Full s c).line15 ≤ 95375 →
      calc1040Run s c = some (calc1040 s c) ∧
      (calc1040Full s c).line16 =
        roundCents (taxSingleBrackets (calc1040Full s c).line15)) ∧
    (95375 < (calc1040Full s c).line15 → calc1040Run s c = none) := by
  rw [List.mem_cons, List.mem_cons, List.mem_cons, List.mem_cons, List.mem_cons] at h
  push_neg at h
  obtain ⟨h1, h2, h3, h4, h5, -⟩ := h
  have hstd : stdDeductionFor (get_field_value s "FilingStatus") = 13850 := by
    rw [stdDeductionFor, if_neg h1, if_neg h2, if_neg h3, if_neg h4, if_neg h5]
  have hraise : tax16Raises (get_field_value s "FilingStatus") (calc1040Full s c).line15 =
      decide (95375 < (calc1040Full s c).line15) := by
    rw [tax16Raises, if_neg h1, if_neg h2]
  refine ⟨hstd, ?_, ?_, ?_⟩
  · have h12v : (calc1040Full s c).line12 =
        (if decide (stdDeductionFor (get_field_value s "FilingStatus") <
            (calc1040Full s c).itemized) = true then (calc1040Full s c).itemized
         else stdDeductionFor (get_field_value s "FilingStatus")) := rfl
    rw [h12v, hstd, ite_decide_lt_eq_max]
  · intro hle
    constructor
    · have hnot : ¬ (decide ((95375 : ℚ) < (calc1040Full s c).line15) = true) := by
        simp only [decide_eq_true_eq, not_lt]
        exact hle
      rw [calc1040Run, hraise, if_neg hnot]
      rfl
    · have h16v : (calc1040Full s c).line16 = roundCents
          (if get_field_value s "FilingStatus" = some (Val.s "Single") then
            taxSingleBrackets (calc1040Full s c).line15
           else if get_field_value s "FilingStatus" = some (Val.s "MarriedFilingJointly") then
            taxMarriedJointBrackets (calc1040Full s c).line15
           else taxSingleBrackets (calc1040Full s c).line15) := rfl
      rw [h16v, if_neg h1, if_neg h2]
  · intro hgt
    have hyes : decide ((95375 : ℚ) < (calc1040Full s c).line15) = true := by
      simp only [decide_eq_true_eq]
      exact hgt
    rw [calc1040Run, hraise, if_pos hyes]

set_option maxHeartbeats 2000000 in
/-- C10 (witness): a structure with no FilingStatus field at all gets the
Single standard deduction; its taxable income 0 is below the crash band,
so the step completes and Line 16 carries the Single bracket tax. -/
theorem filing_status_fallback_witness :
    stdDeductionFor (get_field_value exNoStatus "FilingStatus") = 13850 ∧
    calc1040Run exNoStatus [] = some (calc1040 exNoStatus []) ∧
    (calc1040Full exNoStatus []).line16 =
      roundCents (taxSingleBrackets (calc1040Full exNoStatus []).line15) := by
  obtain ⟨hstd, h12, hcomp, hcrash⟩ := filing_status_fallback exNoStatus [] (by decide)
  have h15 : (calc1040Full exNoStatus []).line15 = 0 := by
    simp [calc1040Full, exNoStatus, get_numeric_value, get_field_value, find_field,
      find_in_fields, set_field_value, set_in_fields, blankField, numField, strField,
      alookup, stdDeductionFor, has_field]
    norm_num
  obtain ⟨hrun, h16⟩ := hcomp (by rw [h15]; norm_num)
  exact ⟨hstd, hrun, h16⟩

set_option maxHeartbeats 2000000 in
/-- C10 (counterexample): the unrecognized status `Married` with AGI
200000 yields taxable income 186150; the catch-all top arm raises
`TypeError`, so the calculation step does fail. -/
theorem filing_status_fallback_counterexample :
    get_field_value exBadStatus "FilingStatus" = some (Val.s "Married") ∧
    (calc1040Full exBadStatus []).line15 = 186150 ∧
    calc1040Run exBadStatus [] = none := by
  have h15 : (calc1040Full exBadStatus []).line15 = 186150 := by
    simp [calc1040Full, exBadStatus, get_numeric_value, get_field_value, find_field,
      find_in_fields, set_field_value, set_in_fields, blankField, numField, strField,
      alookup, stdDeductionFor, has_field]
    norm_num
  have hr : tax16Raises (get_field_value exBadStatus "FilingStatus") 186150 = true := by
    decide
  refine ⟨rfl, h15, ?_⟩
  rw [calc1040Run, h15, hr]
  simp

set_option maxHeartbeats 2000000 in
/-- C8 (amended): after the 1040 block, when Total Tax (Line 24) differs
from Total Payments (Line 33) exactly one of Line 34 (overpaid) and
Line 37 (owed) is positive and the other is 0; when they are equal both
are 0, so the exactly-one-positive split fails in that boundary case.
The output fields carry exactly the computed amounts. -/
theorem overpaid_owed_split (s : FormStructure) (c : Cache)
    (h34 : has_field s "Line34_AmountOverpaid" = true)
    (h37 : has_field s "Line37_AmountYouOwe" = true) :
    ((calc1040Full s c).line24 = (calc1040Full s c).line33 →
      (calc1040Full s c).line34 = 0 ∧ (calc1040Full s c).line37 = 0) ∧
    ((calc1040Full s c).line24 ≠ (calc1040Full s c).line33 →
      ((calc1040Full s c).line34 > 0 ∧ (calc1040Full s c).line37 = 0) ∨
      ((calc1040Full s c).line37 > 0 ∧ (calc1040Full s c).line34 = 0)) ∧
    get_field_value (calc1040 s c) "Line34_AmountOverpaid" =
      some (Val.num (calc1040Full s c).line34) ∧
    get_field_value (calc1040 s c) "Line37_AmountYouOwe" =
      some (Val.num (calc1040Full s c).line37) := by
  have h34d : (calc1040Full s c).line34 =
      (if (calc1040Full s c).line24 < (calc1040Full s c).line33 then
        (calc1040Full s c).line33 - (calc1040Full s c).line24 else 0) := rfl
  have h37d : (calc1040Full s c).line37 =
      (if (calc1040Full s c).line33 < (calc1040Full s c).line24 then
        (calc1040Full s c).line24 - (calc1040Full s c).line33 else 0) := rfl
  refine ⟨?_, ?_, ?_, ?_⟩
  · intro heq
    rw [h34d, h37d, heq]
    simp
  · intro hne
    rcases lt_trichotomy (calc1040Full s c).line24 (calc1040Full s c).line33 with hlt | heq | hgt
    · left
      rw [h34d, h37d, if_pos hlt, if_neg (not_lt.mpr hlt.le)]
      exact ⟨sub_pos.mpr hlt, rfl⟩
    · exact absurd heq hne
    · right
      rw [h34d, h37d, if_pos hgt, if_neg (not_lt.mpr hgt.le)]
      exact ⟨sub_pos.mpr hgt, rfl⟩
  · simp only [calc1040, calc1040Full]
    rw [get_set_ne _ "Line37_AmountYouOwe" "Line34_AmountOverpaid" _ _ (by decide),
      get_set_self _ "Line34_AmountOverpaid" _ _ (by
        rw [has_field_set, has_field_set, has_field_set, has_field_set, has_field_set,
          has_field_set, has_field_set, has_field_set]
        exact h34)]
  · simp only [calc1040, calc1040Full]
    rw [get_set_self _ "Line37_AmountYouOwe" _ _ (by
      rw [has_field_set, has_field_set, has_field_set, has_field_set, has_field_set,
        has_field_set, has_field_set, has_field_set, has_field_set]
      exact h37)]

set_option maxHeartbeats 2000000 in
/-- C8 (witness): with no tax inputs and total payments 5000, Total Tax 0
differs from Total Payments 5000 and the overpaid amount is the positive
one, the owed amount 0. -/
theorem overpaid_owed_split_witness :
    (calc1040Full exC8 []).line24 ≠ (calc1040Full exC8 []).line33 ∧
    (((calc1040Full exC8 []).line34 > 0 ∧ (calc1040Full exC8 []).line37 = 0) ∨
      ((calc1040Full exC8 []).line37 > 0 ∧ (calc1040Full exC8 []).line34 = 0)) := by
  have h24 : (calc1040Full exC8 []).line24 = 0 := by
    simp [calc1040Full, exC8, get_numeric_value, get_field_value, find_field,
      find_in_fields, set_field_value, set_in_fields, blankField, numField, strField,
      alookup, stdDeductionFor, taxSingleBrackets, roundCents, roundHalfEvenZ, has_field]
    norm_num
  have h33 : (calc1040Full exC8 []).line33 = 5000 := by
    simp only [calc1040Full]
    rw [gnv_set_ne _ "Line24_TotalTax" "Line33_TotalPayments" _ _ (by decide),
      gnv_set_ne _ "Line22_TaxAfterNonrefundableCredits" "Line33_TotalPayments" _ _
        (by decide),
      gnv_set_ne _ "Line18_TotalTaxBeforeCredits" "Line33_TotalPayments" _ _ (by decide),
      gnv_set_ne _ "Line16_Tax" "Line33_TotalPayments" _ _ (by decide),
      gnv_set_ne _ "Line15_TaxableIncome" "Line33_TotalPayments" _ _ (by decide),
      gnv_set_ne _ "Line14_TotalDeductions" "Line33_TotalPayments" _ _ (by decide),
      gnv_set_ne _ "Line12_UsedItemized" "Line33_TotalPayments" _ _ (by decide),
      gnv_set_ne _ "Line12_DeductionAmount" "Line33_TotalPayments" _ _ (by decide)]
    rfl
  have hne : (calc1040Full exC8 []).line24 ≠ (calc1040Full exC8 []).line33 := by
    rw [h24, h33]
    norm_num
  exact ⟨hne, (overpaid_owed_split exC8 [] (by decide) (by decide)).2.1 hne⟩

set_option maxHeartbeats 2000000 in
/-- C8 (counterexample): with no tax inputs and no payments, Total Tax
equals Total Payments (both 0) and both Line 34 and Line 37 come out 0,
so the claimed exactly-one-positive split fails on this boundary case. -/
theorem overpaid_owed_boundary_counterexample :
    (calc1040Full exC8eq []).line24 = (calc1040Full exC8eq []).line33 ∧
    (calc1040Full exC8eq []).line34 = 0 ∧
    (calc1040Full exC8eq []).line37 = 0 ∧
    ¬ (((calc1040Full exC8eq []).line34 > 0 ∧ (calc1040Full exC8eq []).line37 = 0) ∨
       ((calc1040Full exC8eq []).line37 > 0 ∧ (calc1040Full exC8eq []).line34 = 0)) := by
  have h24 : (calc1040Full exC8eq []).line24 = 0 := by
    simp [calc1040Full, exC8eq, get_numeric_value, get_field_value, find_field,
      find_in_fields, set_field_value, set_in_fields, blankField, numField, strField,
      alookup, stdDeductionFor, taxSingleBrackets, roundCents, roundHalfEvenZ, has_field]
    norm_num
  have h33 : (calc1040Full exC8eq []).line33 = 0 := by
    simp only [calc1040Full]
    rw [gnv_set_ne _ "Line24_TotalTax" "Line33_TotalPayments" _ _ (by decide),
      gnv_set_ne _ "Line22_TaxAfterNonrefundableCredits" "Line33_TotalPayments" _ _
        (by decide),
      gnv_set_ne _ "Line18_TotalTaxBeforeCredits" "Line33_TotalPayments" _ _ (by decide),
      gnv_set_ne _ "Line16_Tax" "Line33_TotalPayments" _ _ (by decide),
      gnv_set_ne _ "Line15_TaxableIncome" "Line33_TotalPayments" _ _ (by decide),
      gnv_set_ne _ "Line14_TotalDeductions" "Line33_TotalPayments" _ _ (by decide),
      gnv_set_ne _ "Line12_UsedItemized" "Line33_TotalPayments" _ _ (by decide),
      gnv_set_ne _ "Line12_DeductionAmount" "Line33_TotalPayments" _ _ (by decide)]
    rfl
  have h34d : (calc1040Full exC8eq []).line34 =
      (if (calc1040Full exC8eq []).line24 < (calc1040Full exC8eq []).line33 then
        (calc1040Full exC8eq []).line33 - (calc1040Full exC8eq []).line24 else 0) := rfl
  have h37d : (calc1040Full exC8eq []).line37 =
      (if (calc1040Full exC8eq []).line33 < (calc1040Full exC8eq []).line24 then
        (calc1040Full exC8eq []).line24 - (calc1040Full exC8eq []).line33 else 0) := rfl
  have h34 : (calc1040Full exC8eq []).line34 = 0 := by
    rw [h34d, h24, h33]
    simp
  have h37 : (calc1040Full exC8eq []).line37 = 0 := by
    rw [h37d, h24, h33]
    simp
  refine ⟨h24.trans h33.symm, h34, h37, ?_⟩
  rw [h34, h37]
  norm_num

/-! ### Claims about the Schedule C calculation (C9) -/

set_option maxHeartbeats 2000000 in
/-- C9: the Schedule C block computes Line 3 = Line 1 − Line 2,
Line 5 = Line 3 − Line 4, Line 28 = the sum of the 23 expense lines 8
through 27a, and Line 31 = Line 5 − Line 28, and writes exactly these
amounts into the corresponding output fields. -/
theorem schedc_line_calculations (s : FormStructure)
    (h3 : has_field s "Line3_GrossProfit" = true)
    (h5 : has_field s "Line5_GrossIncome" = true)
    (h28 : has_field s "Line28_TotalExpenses" = true)
    (h31 : has_field s "Line31_NetProfitLoss" = true) :
    ((calcSchedCFull s).line3 = get_numeric_value s "Line1_GrossReceiptsSales" -
        get_numeric_value s "Line2_ReturnsAllowances" ∧
      (calcSchedCFull s).line5 = (calcSchedCFull s).line3 -
        get_numeric_value s "Line4_CostOfGoodsSold" ∧
      (calcSchedCFull s).line28 =
        get_numeric_value s "Line8_Advertising" +
        get_numeric_value s "Line9_CarTruckExpenses" +
        get_numeric_value s "Line10_CommissionsFees" +
        get_numeric_value s "Line11_ContractLabor" +
        get_numeric_value s "Line12_Depletion" +
        get_numeric_value s "Line13_DepreciationSection179" +
        get_numeric_value s "Line14_EmployeeBenefitPrograms" +
        get_numeric_value s "Line15_Insurance" +
        get_numeric_value s "Line16a_InterestMortgage" +
        get_numeric_value s "Line16b_InterestOther" +
        get_numeric_value s "Line17_LegalProfessionalServices" +
        get_numeric_value s "Line18_OfficeExpense" +
        get_numeric_value s "Line19_PensionProfitSharing" +
        get_numeric_value s "Line20a_RentLeaseVehicles" +
        get_numeric_value s "Line20b_RentLeaseOther" +
        get_numeric_value s "Line21_RepairsMaintenance" +
        get_numeric_value s "Line22_Supplies" +
        get_numeric_value s "Line23_TaxesLicenses" +
        get_numeric_value s "Line24a_Travel" +
        get_numeric_value s "Line24b_DeductibleMeals" +
        get_numeric_value s "Line25_Utilities" +
        get_numeric_value s "Line26_Wages" +
        get_numeric_value s "Line27a_OtherExpenses" ∧
      (calcSchedCFull s).line31 = (calcSchedCFull s).line5 - (calcSchedCFull s).line28) ∧
    get_field_value (calcSchedC s) "Line3_GrossProfit" =
      some (Val.num (calcSchedCFull s).line3) ∧
    get_field_value (calcSchedC s) "Line5_GrossIncome" =
      some (Val.num (calcSchedCFull s).line5) ∧
    get_field_value (calcSchedC s) "Line28_TotalExpenses" =
      some (Val.num (calcSchedCFull s).line28) ∧
    get_field_value (calcSchedC s) "Line31_NetProfitLoss" =
      some (Val.num (calcSchedCFull s).line31) := by
  refine ⟨⟨rfl, ?_, ?_, rfl⟩, ?_, ?_, ?_, ?_⟩
  · have h5v : (calcSchedCFull s).line5 = (calcSchedCFull s).line3 -
        get_numeric_value (set_field_value s "Line3_GrossProfit"
          (Val.num (calcSchedCFull s).line3) "Calculated") "Line4_CostOfGoodsSold" := rfl
    rw [h5v, gnv_set_ne _ "Line3_GrossProfit" "Line4_CostOfGoodsSold" _ _ (by decide)]
  · simp only [calcSchedCFull]
    simp [gnv_set_ne]
  · simp only [calcSchedC, calcSchedCFull]
    rw [get_set_ne _ "Line31_NetProfitLoss" "Line3_GrossProfit" _ _ (by decide),
      get_set_ne _ "Line28_TotalExpenses" "Line3_GrossProfit" _ _ (by decide),
      get_set_ne _ "Line5_GrossIncome" "Line3_GrossProfit" _ _ (by decide),
      get_set_self _ "Line3_GrossProfit" _ _ h3]
  · simp only [calcSchedC, calcSchedCFull]
    rw [get_set_ne _ "Line31_NetProfitLoss" "Line5_GrossIncome" _ _ (by decide),
      get_set_ne _ "Line28_TotalExpenses" "Line5_GrossIncome" _ _ (by decide),
      get_set_self _ "Line5_GrossIncome" _ _ (by rw [has_field_set]; exact h5)]
  · simp only [calcSchedC, calcSchedCFull]
    rw [get_set_ne _ "Line31_NetProfitLoss" "Line28_TotalExpenses" _ _ (by decide),
      get_set_self _ "Line28_TotalExpenses" _ _ (by
        rw [has_field_set, has_field_set]; exact h28)]
  · simp only [calcSchedC, calcSchedCFull]
    rw [get_set_self _ "Line31_NetProfitLoss" _ _ (by
      rw [has_field_set, has_field_set, has_field_set]; exact h31)]

set_option maxHeartbeats 2000000 in
/-- C9 (witness): gross receipts 100000, returns 2000, cost of goods sold
20000 and supplies 30000 give Line 3 = 98000, Line 5 = 78000,
Line 28 = 30000 and Line 31 = 48000. -/
theorem schedc_line_calculations_witness :
    (calcSchedCFull exSchedC).line3 = 98000 ∧
    (calcSchedCFull exSchedC).line5 = 78000 ∧
    (calcSchedCFull exSchedC).line28 = 30000 ∧
    (calcSchedCFull exSchedC).line31 = 48000 := by
  obtain ⟨⟨e3, e5, e28, e31⟩, f3, f5, f28, f31⟩ :=
    schedc_line_calculations exSchedC (by decide) (by decide) (by decide) (by decide)
  have h3v : (calcSchedCFull exSchedC).line3 = 98000 := by
    rw [e3, show get_numeric_value exSchedC "Line1_GrossReceiptsSales" = 100000 from rfl,
      show get_numeric_value exSchedC "Line2_ReturnsAllowances" = 2000 from rfl]
    norm_num
  have h28v : (calcSchedCFull exSchedC).line28 = 30000 := by
    rw [e28]
    simp [get_numeric_value, get_field_value, find_field, find_in_fields, exSchedC,
      numField, blankField]
  have h5v : (calcSchedCFull exSchedC).line5 = 78000 := by
    rw [e5, h3v, show get_numeric_value exSchedC "Line4_CostOfGoodsSold" = 20000 from rfl]
    norm_num
  have h31v : (calcSchedCFull exSchedC).line31 = 48000 := by
    rw [e31, h5v, h28v]
    norm_num
  exact ⟨h3v, h5v, h28v, h31v⟩

/-! ### Claims about cache reads and the processing order (C2) -/

/-- C2 (amended): the Form 1040 step's cache dependence is only on the
`Schedule A` entry, and `Schedule A` precedes `1040` in the fixed
processing order; but the Schedule A step reads the `1040` entry — a form
that does NOT precede it — fetching that entry's AGI and writing it to
`SchA_Line2_AGI` before it unconditionally raises `TypeError` at
`agi * Decimal('0.075')`, so the invariant is violated and the Schedule A
step never completes (the driver records it FAILED and caches nothing). -/
theorem cache_dependence :
    ("Schedule A" ∈ formsBefore "1040" ∧ "1040" ∉ formsBefore "Schedule A") ∧
    (∀ (s : FormStructure) (c₁ c₂ : Cache),
      alookup c₁ "Schedule A" = alookup c₂ "Schedule A" →
        calc1040Full s c₁ = calc1040Full s c₂ ∧ calc1040Run s c₁ = calc1040Run s c₂) ∧
    (∀ (s : FormStructure) (c : Cache), calcScheduleARun s c = none) ∧
    (∀ (s : FormStructure) (c₁ c₂ : Cache),
      alookup c₁ "1040" = alookup c₂ "1040" →
        schedAPrefix s c₁ = schedAPrefix s c₂) := by
  refine ⟨by decide, ?_, fun s c => rfl, ?_⟩
  · intro s c₁ c₂ h
    have hfull : calc1040Full s c₁ = calc1040Full s c₂ := by
      simp only [calc1040Full, h]
    refine ⟨hfull, ?_⟩
    rw [calc1040Run, calc1040Run, hfull]
  · intro s c₁ c₂ h
    simp only [schedAPrefix, h]

/-- C2 (witness): enlarging a cache by entries the block never reads
changes neither the 1040 step nor the Schedule A pre-crash behaviour, and
the Schedule A step fails on a concrete cache. -/
theorem cache_dependence_witness :
    calc1040Full ex1040 [("Schedule A", exSchedA8000), ("SchedC", exSchedC)] =
      calc1040Full ex1040 exCacheSchedA ∧
    calcScheduleARun exSchedAmed cacheWith1040 = none ∧
    schedAPrefix exSchedAmed [("1040", ex1040agi), ("SchedC", exSchedC)] =
      schedAPrefix exSchedAmed cacheWith1040 := by
  obtain ⟨horder, h1040, hraise, hpre⟩ := cache_dependence
  exact ⟨(h1040 ex1040 _ _ (by decide)).1, hraise exSchedAmed cacheWith1040,
    hpre exSchedAmed _ _ (by decide)⟩

/-- C2 (counterexample): the empty cache and a cache holding only a Form
1040 entry agree on every form type that precedes Schedule A in the
processing order, yet the Schedule A step behaves differently between
them before raising — the AGI it fetches and writes into `SchA_Line2_AGI`
comes from the `1040` entry, a form that follows it; and on both caches
the step itself fails with `TypeError`, never producing a structure. -/
theorem schedA_reads_1040_cache_counterexample :
    (List.map (alookup ([] : Cache)) (formsBefore "Schedule A") =
      List.map (alookup cacheWith1040) (formsBefore "Schedule A")) ∧
    schedAPrefix exSchedAmed [] ≠ schedAPrefix exSchedAmed cacheWith1040 ∧
    calcScheduleARun exSchedAmed [] = none ∧
    calcScheduleARun exSchedAmed cacheWith1040 = none := by
  exact ⟨by decide, by decide, rfl, rfl⟩
